import Mathlib

set_option maxRecDepth 16000

/-!
Verification development for the patentdoc repository.

The repository drafts patent-application sections by wrapping a local
text-generation engine in per-section generate → clean → validate → retry
loops.  This file shallowly embeds the deterministic orchestration code
(the cleaning functions, the rule-based validators, the retry loops, the
claims formatting pipeline, and the two Streamlit button handlers that
guard the Detailed-Description and 5-agent verification steps) and proves
or refutes the frozen specification claims about them.

Python strings are modelled as Lean `String`/`List Char`; the specific
`re` operations used by the source are hand-implemented with the exact
semantics of each pattern (documented at each definition).  The
generation engine and retrieval index are external collaborators and are
modelled as stub functions `Nat → Except String String` (attempt index ↦
raised-exception message or generated text), exactly as the spec's
interface boundary prescribes.
-/

namespace Patentdoc

/-! ## Python string primitives -/

/-- Python `str.isspace` character class used by `strip`/`split`. -/
def pyIsSpace (c : Char) : Bool :=
  c = ' ' ∨ c = '\t' ∨ c = '\n' ∨ c = '\r' ∨ c = '\x0b' ∨ c = '\x0c'

/-- Python regex `\w` (ASCII word character). -/
def isWordChar (c : Char) : Bool :=
  c.isAlpha ∨ c.isDigit ∨ c = '_'

/-- ASCII lowercase of a char list (Python `str.lower` on our inputs). -/
def lowerL (l : List Char) : List Char := l.map Char.toLower

/-- Case-insensitive literal prefix match: if `lowerL pat` is a prefix of
`lowerL s`, return the remainder of `s`. -/
def dropLitCI : List Char → List Char → Option (List Char)
  | [], s => some s
  | _ :: _, [] => none
  | p :: ps, c :: cs => if p.toLower = c.toLower then dropLitCI ps cs else none

/-- Case-sensitive literal prefix match returning the remainder. -/
def dropLit : List Char → List Char → Option (List Char)
  | [], s => some s
  | _ :: _, [] => none
  | p :: ps, c :: cs => if p = c then dropLit ps cs else none

/-- Python `str.split()` (split on whitespace runs, dropping empties). -/
def pySplitAux : List Char → List Char → List (List Char)
  | [], acc => if acc = [] then [] else [acc.reverse]
  | c :: cs, acc =>
    if pyIsSpace c then
      if acc = [] then pySplitAux cs [] else acc.reverse :: pySplitAux cs []
    else pySplitAux cs (c :: acc)

def pySplit (l : List Char) : List (List Char) := pySplitAux l []

/-- Python `sep.join(parts)` on char lists. -/
def joinSep (sep : List Char) : List (List Char) → List Char
  | [] => []
  | [x] => x
  | x :: xs => x ++ sep ++ joinSep sep xs

/-- Python `len(text.split())`, the word count used by every validator. -/
def pyWordCount (s : String) : Nat := (pySplit s.data).length

/-- Python `str.strip()` (strip whitespace both sides). -/
def pyStrip (l : List Char) : List Char :=
  ((l.dropWhile pyIsSpace).reverse.dropWhile pyIsSpace).reverse

/-- Python `str.strip(chars)` for an explicit char set. -/
def pyStripChars (set : List Char) (l : List Char) : List Char :=
  ((l.dropWhile (set.contains ·)).reverse.dropWhile (set.contains ·)).reverse

/-- Python `str.rstrip(chars)` for an explicit char set. -/
def pyRStripChars (set : List Char) (l : List Char) : List Char :=
  (l.reverse.dropWhile (set.contains ·)).reverse

/-- Python `str.lstrip()`-style drop of leading whitespace. -/
def dropWs (l : List Char) : List Char := l.dropWhile pyIsSpace

/-- Is `needle` a contiguous segment of the char list? -/
def infixOfL (needle : List Char) : List Char → Bool
  | [] => needle.isEmpty
  | c :: cs => (dropLit needle (c :: cs)).isSome || infixOfL needle cs

/-- Substring test (Python `needle in haystack`), case-sensitive. -/
def containsSub (haystack needle : String) : Bool :=
  infixOfL needle.data haystack.data

/-- Python `str.splitlines` restricted to `\n` (the source only ever
produces `\n`), i.e. `text.split('\n')`. -/
def splitOnNl : List Char → List (List Char) :=
  fun l => splitAux l []
where
  splitAux : List Char → List Char → List (List Char)
    | [], acc => [acc.reverse]
    | c :: cs, acc =>
      if c = '\n' then acc.reverse :: splitAux cs [] else splitAux cs (c :: acc)

/-- Python `text.split(sep)` for a non-empty literal separator. -/
def splitOnLit (sep : List Char) : List Char → List (List Char) :=
  fun l => go l.length l []
where
  go : Nat → List Char → List Char → List (List Char)
    | 0, rest, acc => [acc.reverse ++ rest]
    | fuel + 1, rest, acc =>
      match rest with
      | [] => [acc.reverse]
      | c :: cs =>
        match dropLit sep rest with
        | some rem => acc.reverse :: go fuel rem []
        | none => go fuel cs (c :: acc)

/-! ### `re.sub` scanners

`subScanR` models an unanchored `re.sub`: scan left to right, at each
position try the matcher (which must consume at least one char); on a
match emit the replacement and resume after the match, else emit the
char.  `subMulti` models a `re.sub(^..., '', flags=re.MULTILINE)` with
empty replacement: the matcher is tried only at line starts, and reports
whether the position after the match is again a line start (its last
consumed char was a newline). -/

def subScanR (m : List Char → Option (List Char × List Char)) :
    Nat → List Char → List Char
  | 0, s => s
  | _ + 1, [] => []
  | fuel + 1, c :: cs =>
    match m (c :: cs) with
    | some (rep, rem) => rep ++ subScanR m fuel rem
    | none => c :: subScanR m fuel cs

def subMulti (m : List Char → Option (List Char × Bool)) :
    Nat → Bool → List Char → List Char
  | 0, _, s => s
  | _ + 1, _, [] => []
  | fuel + 1, atStart, c :: cs =>
    if atStart then
      match m (c :: cs) with
      | some (rem, nl) => subMulti m fuel nl rem
      | none => c :: subMulti m fuel (c = '\n') cs
    else
      c :: subMulti m fuel (c = '\n') cs

/-- Greedy `\s*` that also reports the last whitespace char consumed
(needed to know whether a MULTILINE match ended just after a newline). -/
def dropWsLast : List Char → Option Char → List Char × Option Char
  | [], last => ([], last)
  | c :: cs, last =>
    if pyIsSpace c then dropWsLast cs (some c) else (c :: cs, last)

/-- Greedy `\s+`: at least one whitespace char, then all of them, with
the last one consumed. -/
def dropWsPlus (l : List Char) : Option (List Char × Char) :=
  match l with
  | [] => none
  | c :: cs =>
    if pyIsSpace c then
      let (rest, last) := dropWsLast cs (some c)
      some (rest, last.getD c)
    else none

/-- Greedy `\d+` returning the digits and the remainder. -/
def takeDigits (l : List Char) : Option (List Char × List Char) :=
  match l.span Char.isDigit with
  | (ds, rest) => if ds = [] then none else some (ds, rest)

/-- Digits to `Nat` (Python `int` on a digit run). -/
def digitsToNat (ds : List Char) : Nat :=
  ds.foldl (fun n c => n * 10 + (c.toNat - 48)) 0

/-- Matcher for a MULTILINE line-start header removal
`^(LITERAL:?)\s*` (case-insensitive literal, optional colon, greedy
whitespace): returns the remainder and whether the match ended after a
newline. -/
def headerMatcher (pat : List Char) (s : List Char) : Option (List Char × Bool) :=
  match dropLitCI pat s with
  | none => none
  | some r =>
    let r' := match r with
      | ':' :: rest => rest
      | _ => r
    let (rem, last) := dropWsLast r' none
    some (rem, last = some '\n')

/-- Matcher for `^\s*\d+\.\s+` (MULTILINE): leading whitespace may cross
newlines, then digits, a dot and at least one whitespace char. -/
def numberedListMatcher (s : List Char) : Option (List Char × Bool) :=
  let (afterWs, _) := dropWsLast s none
  match takeDigits afterWs with
  | none => none
  | some (_, rest) =>
    match rest with
    | '.' :: rest' =>
      match dropWsPlus rest' with
      | some (rem, last) => some (rem, last = '\n')
      | none => none
    | _ => none

/-- Matcher for `^\s*[-•*]\s+` (MULTILINE). -/
def bulletMatcher (s : List Char) : Option (List Char × Bool) :=
  let (afterWs, _) := dropWsLast s none
  match afterWs with
  | c :: rest =>
    if c = '-' ∨ c = '•' ∨ c = '*' then
      match dropWsPlus rest with
      | some (rem, last) => some (rem, last = '\n')
      | none => none
    else none
  | [] => none

/-- Matcher for `^#+\s+` (MULTILINE). -/
def hashHeaderMatcher (s : List Char) : Option (List Char × Bool) :=
  match s.span (· = '#') with
  | (hs, rest) =>
    if hs = [] then none
    else
      match dropWsPlus rest with
      | some (rem, last) => some (rem, last = '\n')
      | none => none

/-- Matcher for `\*\*([^*]+)\*\*` replaced by the group: the inner run is
the maximal star-free run, which must be followed by `**`. -/
def mdBoldMatcher (s : List Char) : Option (List Char × List Char) :=
  match dropLit "**".data s with
  | none => none
  | some r =>
    match r.span (· ≠ '*') with
    | (inner, rest) =>
      if inner = [] then none
      else
        match dropLit "**".data rest with
        | some rem => some (inner, rem)
        | none => none

/-- Matcher for `__([^_]+)__` replaced by the group. -/
def mdUnderlineMatcher (s : List Char) : Option (List Char × List Char) :=
  match dropLit "__".data s with
  | none => none
  | some r =>
    match r.span (· ≠ '_') with
    | (inner, rest) =>
      if inner = [] then none
      else
        match dropLit "__".data rest with
        | some rem => some (inner, rem)
        | none => none

/-- Matcher for `\*([^*]+)\*` replaced by the group. -/
def mdStarMatcher (s : List Char) : Option (List Char × List Char) :=
  match s with
  | '*' :: r =>
    match r.span (· ≠ '*') with
    | (inner, rest) =>
      if inner = [] then none
      else
        match rest with
        | '*' :: rem => some (inner, rem)
        | _ => none
  | _ => none

/-- Matcher for `\n{3,}` replaced by a double newline. -/
def nlRunMatcher (s : List Char) : Option (List Char × List Char) :=
  match s.span (· = '\n') with
  | (ns, rest) =>
    if 3 ≤ ns.length then some ("\n\n".data, rest) else none

/-- Matcher for `' +'` replaced by one space. -/
def spaceRunMatcher (s : List Char) : Option (List Char × List Char) :=
  match s.span (· = ' ') with
  | (sp, rest) =>
    if sp = [] then none else some ([' '], rest)

/-- Python `text.replace(old, '')` for a literal. -/
def eraseLitMatcher (pat : List Char) (s : List Char) : Option (List Char × List Char) :=
  match dropLit pat s with
  | some rem => some ([], rem)
  | none => none

/-- Apply an unanchored sub over the whole text (fuel = length + 1). -/
def runSub (m : List Char → Option (List Char × List Char)) (l : List Char) :
    List Char :=
  subScanR m (l.length + 1) l

/-- Apply a MULTILINE line-anchored empty-replacement sub. -/
def runSubMulti (m : List Char → Option (List Char × Bool)) (l : List Char) :
    List Char :=
  subMulti m (l.length + 1) true l

/-- Count of non-overlapping occurrences of a literal
(`len(re.findall(lit, s))` for a literal pattern). -/
def countLit (pat : List Char) : Nat → List Char → Nat
  | 0, _ => 0
  | _ + 1, [] => 0
  | fuel + 1, c :: cs =>
    match dropLit pat (c :: cs) with
    | some rem => 1 + countLit pat fuel rem
    | none => countLit pat fuel cs

def countOccurrences (pat : List Char) (l : List Char) : Nat :=
  countLit pat (l.length + 1) l

/-- Word-boundary check for the char before a `\b`-anchored match. -/
def prevBoundaryOk : Option Char → Bool
  | none => true
  | some c => !isWordChar c

/-- Word-boundary check for the remainder after a `\b`-anchored match. -/
def nextBoundaryOk : List Char → Bool
  | [] => true
  | c :: _ => !isWordChar c

/-- `re.search(r'\b w \b', s)`: the literal word `w` occurs with word
boundaries on both sides (case-sensitive; callers lowercase as the source
does, or pass already-lowercase patterns). -/
def boundarySearchAux (w : List Char) : Option Char → List Char → Bool
  | prev, s =>
    (match dropLit w s with
     | some rest => prevBoundaryOk prev && nextBoundaryOk rest
     | none => false)
    || match s with
       | [] => false
       | c :: cs => boundarySearchAux w (some c) cs

def boundarySearch (w : List Char) (s : List Char) : Bool :=
  boundarySearchAux w none s

/-- Number of positions where a `\b w \b` match starts (identical words
with boundaries cannot overlap, so this is the occurrence count). -/
def countBoundaryStarts (w : List Char) : Option Char → List Char → Nat
  | prev, s =>
    (match dropLit w s with
     | some rest => if prevBoundaryOk prev && nextBoundaryOk rest then 1 else 0
     | none => 0)
    + match s with
      | [] => 0
      | c :: cs => countBoundaryStarts w (some c) cs

/-- Python `str.isupper`: at least one cased char, and no lowercase one
(ASCII suffices for this code base). -/
def pyIsUpper (l : List Char) : Bool :=
  l.any Char.isAlpha && l.all (fun c => !c.isLower)

/-- Python `str.istitle` (ASCII): uppercase letters follow only uncased
characters, lowercase letters follow only cased ones, and at least one
cased character occurs. -/
def pyIsTitle (l : List Char) : Bool := go false false l
where
  go (prevCased seenCased : Bool) : List Char → Bool
    | [] => seenCased
    | c :: cs =>
      if c.isUpper then (if prevCased then false else go true true cs)
      else if c.isLower then (if prevCased then go true true cs else false)
      else go false seenCased cs

/-- Python `int → str` and concatenation helpers for the f-string
messages the validators build. -/
def natStr (n : Nat) : String := toString n

/-! ## generate_title.py — title cleaning, validation and retry loop -/

namespace Title

/-- `FORBIDDEN_STARTING_WORDS` of generate_title.py (MPEP 606 list). -/
def FORBIDDEN_STARTING_WORDS : List String :=
  ["a", "an", "the",
   "improved", "improvement", "improvements",
   "new", "novel",
   "related to",
   "design", "design for", "design of",
   "ornamental", "ornamental design"]

/-- `WEAK_WORDS` of generate_title.py. -/
def WEAK_WORDS : List String :=
  ["innovative", "advanced", "efficient", "effective", "smart",
   "intelligent", "modern", "revolutionary", "unique", "special",
   "enhanced", "optimized", "superior", "better", "best"]

/-- The quote characters stripped by `title.strip('"\x27`')`. -/
def quoteChars : List Char := [Char.ofNat 34, Char.ofNat 39, Char.ofNat 96]

/-- `re.sub(r'^(Title:|Patent Title:|Generated Title:)\s*', '', title,
flags=re.IGNORECASE)`: without MULTILINE the `^` anchors only at the start,
so at most one label is removed, alternatives tried left to right. -/
def stripTitleLabel (l : List Char) : List Char :=
  match dropLitCI "Title:".data l with
  | some r => dropWs r
  | none =>
    match dropLitCI "Patent Title:".data l with
    | some r => dropWs r
    | none =>
      match dropLitCI "Generated Title:".data l with
      | some r => dropWs r
      | none => l

/-- One pass of `re.sub(r'^(word)\s+', '', title, flags=re.IGNORECASE)`:
if the title starts with the word followed by at least one whitespace
character, the word and the whole (greedy `\s+`) whitespace run go. -/
def stripForbiddenStart (w : List Char) (l : List Char) : List Char :=
  match dropLitCI w l with
  | some r =>
    match r with
    | c :: _ => if pyIsSpace c then dropWs r else l
    | [] => l
  | none => l

/-- The `for word in FORBIDDEN_STARTING_WORDS` substitution loop of
`clean_title`, each word applied once, in list order. -/
def removeForbiddenWords (l : List Char) : List Char :=
  FORBIDDEN_STARTING_WORDS.foldl (fun acc w => stripForbiddenStart w.data acc) l

/-- `clean_title` of generate_title.py: label removal, quote strip,
trailing-period strip, forbidden-start removal, whitespace collapse
(`' '.join(title.split())`). -/
def clean_title (s : String) : String :=
  ⟨joinSep [' ']
    (pySplit
      (removeForbiddenWords
        (pyRStripChars ['.']
          (pyStripChars quoteChars
            (stripTitleLabel s.data)))))⟩

/-- `check_weak_words`: the weak words found with `\b` boundaries in the
lowercased title, in `WEAK_WORDS` order. -/
def check_weak_words (title : String) : List String :=
  WEAK_WORDS.filter (fun w => boundarySearch w.data (lowerL title.data))

/-- The four redundancy patterns of `check_specificity`
(`\bsystem\b.*\bsystem\b` etc., IGNORECASE; `.` does not cross a newline,
so two boundary occurrences must fall on one line). -/
def hasRedundantPair (w : String) (title : String) : Bool :=
  (splitOnNl (lowerL title.data)).any
    (fun line => 2 ≤ countBoundaryStarts w.data none line)

/-- `generic_words` of `check_specificity`. -/
def genericWords : List String := ["system", "device", "apparatus", "method", "process"]

/-- `check_specificity` of generate_title.py. -/
def check_specificity (title : String) : Bool × String :=
  if ["system", "method", "device", "apparatus"].any
      (fun w => hasRedundantPair w title) then
    (false, "Contains redundant category words (system, method, etc.)")
  else
    let words := pySplit title.data
    if words.length ≤ 3 &&
        words.any (fun w => genericWords.any (fun g => g.data = lowerL w)) then
      (false, "Too generic - needs more technical specificity")
    else
      (true, "Specific enough")

/-- `category_words` of `validate_title` (warning check 7). -/
def categoryWords : List String :=
  ["system", "method", "apparatus", "device", "composition",
   "process", "circuit", "assembly", "mechanism"]

/-- The result dict of `validate_title`. -/
structure Validation where
  valid : Bool
  issues : List String
  warnings : List String
  word_count : Nat
  char_count : Nat
  cap_style : String
  word_quality : String
  deriving Repr, DecidableEq

/-- `validate_title` of generate_title.py, field for field. -/
def validate_title (title : String) : Validation :=
  let word_count := pyWordCount title
  let char_count := title.data.length
  let issues₁ : List String :=
    if char_count > 500 then
      ["Exceeds 500 character limit (" ++ natStr char_count ++ " chars) - USPTO requirement"]
    else []
  let issues₂ : List String :=
    if word_count < 3 then
      ["Too short (" ++ natStr word_count ++ " words) - minimum 3 words recommended"]
    else if word_count > 15 then
      ["Too long (" ++ natStr word_count ++ " words) - Indian Patent Office recommends max 15 words"]
    else []
  let issues₃ : List String :=
    if title.data.getLast? = some '.' then
      ["Remove period at end - patent titles don't use ending punctuation"]
    else []
  let first_word : String :=
    match pySplit title.data with
    | [] => ""
    | w :: _ => ⟨lowerL w⟩
  let issues₄ : List String :=
    if FORBIDDEN_STARTING_WORDS.contains first_word then
      ["Starts with forbidden word '" ++ first_word ++ "' - will be removed by USPTO"]
    else []
  let weak_found := check_weak_words title
  let warnings₅ : List String :=
    if weak_found ≠ [] then
      ["Contains subjective words: " ++ ⟨joinSep ", ".data (weak_found.map String.data)⟩ ++
        " - use technical terms instead"]
    else []
  let spec := check_specificity title
  let warnings₆ : List String := if spec.1 then [] else [spec.2]
  let has_category :=
    categoryWords.any (fun w => boundarySearch w.data (lowerL title.data))
  let warnings₇ : List String :=
    if has_category then []
    else ["Consider adding category identifier (system, method, apparatus, etc.)"]
  let capPair : String × List String :=
    if pyIsUpper title.data then ("ALL CAPS (USPTO standard)", [])
    else if pyIsTitle title.data then ("Title Case (acceptable)", [])
    else ("Mixed case", ["Consider using ALL CAPS or Title Case for consistency"])
  let word_quality :=
    if 5 ≤ word_count ∧ word_count ≤ 12 then "Optimal"
    else if 3 ≤ word_count ∧ word_count ≤ 15 then "Acceptable"
    else "Needs adjustment"
  let issues := issues₁ ++ issues₂ ++ issues₃ ++ issues₄
  let warnings := warnings₅ ++ warnings₆ ++ warnings₇ ++ capPair.2
  { valid := issues.length = 0
    issues := issues
    warnings := warnings
    word_count := word_count
    char_count := char_count
    cap_style := capPair.1
    word_quality := word_quality }

/-- The score computed inside `generate_title_from_abstract`'s loop
(higher is better): `+100` if valid, `−20` per issue, `−5` per warning,
`+20` when the word count is 5–12. -/
def attemptScore (v : Validation) : Int :=
  (if v.valid then (100 : Int) else 0)
    - 20 * v.issues.length - 5 * v.warnings.length
    + (if 5 ≤ v.word_count ∧ v.word_count ≤ 12 then (20 : Int) else 0)

/-- One loop iteration's record (`best_result` candidate) of
`generate_title_from_abstract`. -/
structure Attempt where
  title : String
  validation : Validation
  attempt : Nat
  score : Int
  deriving Repr, DecidableEq

/-- Build the attempt record for raw engine text at 0-based index `i`
(the dict stores `attempt + 1`). -/
def mkAttempt (i : Nat) (raw : String) : Attempt :=
  let cleaned := clean_title ⟨pyStrip raw.data⟩
  let v := validate_title cleaned
  { title := cleaned, validation := v, attempt := i + 1, score := attemptScore v }

/-- The retry loop of `generate_title_from_abstract` over a stubbed
generation engine (`engine i` = the engine's outcome on attempt `i`,
`.error` = a raised exception, which this loop does NOT catch).
`best_score` starts at `−1` and is beaten only strictly (`score >
best_score`), exactly as in the source; a valid zero-warning attempt
breaks early.  Returns the final `best_result` (possibly `none`!)
together with the list of attempts actually generated. -/
def loop (engine : Nat → Except String String) :
    Nat → Nat → Int → Option Attempt → List Attempt →
    Except String (Option Attempt × List Attempt)
  | _, 0, _, best, acc => .ok (best, acc.reverse)
  | i, fuel + 1, bestScore, best, acc =>
    match engine i with
    | .error e => .error e
    | .ok raw =>
      let a := mkAttempt i raw
      let best' := if a.score > bestScore then some a else best
      let bestScore' := if a.score > bestScore then a.score else bestScore
      if a.validation.valid && a.validation.warnings.length = 0 then
        .ok (best', (a :: acc).reverse)
      else
        loop engine (i + 1) fuel bestScore' best' (a :: acc)

/-- `generate_title_from_abstract`'s control flow (the prompt string does
not influence the control flow and is omitted; the engine stub absorbs
it). -/
def generate_title_from_abstract (engine : Nat → Except String String)
    (max_attempts : Nat := 5) :
    Except String (Option Attempt × List Attempt) :=
  loop engine 0 max_attempts (-1) none []

end Title

/-! ## generate_objects.py — objects cleaning, validation and retry loop -/

namespace Objects

/-- `clean_objects` of generate_objects.py: header removal (MULTILINE),
markdown unwrapping, markdown-header/numbered-list/bullet removal
(MULTILINE), blank-line and space collapsing, `===` erasure, strip. -/
def clean_objects (s : String) : String :=
  let t := runSubMulti (headerMatcher "OBJECTS OF THE INVENTION".data) s.data
  let t := runSub mdBoldMatcher t
  let t := runSub mdUnderlineMatcher t
  let t := runSub mdStarMatcher t
  let t := runSubMulti hashHeaderMatcher t
  let t := runSubMulti numberedListMatcher t
  let t := runSubMulti bulletMatcher t
  let t := runSub nlRunMatcher t
  let t := runSub spaceRunMatcher t
  let t := pyStrip (runSub (eraseLitMatcher "===".data) t)
  ⟨pyStrip t⟩

/-- The result dict of `validate_objects`. -/
structure Validation where
  valid : Bool
  issues : List String
  warnings : List String
  word_count : Nat
  paragraph_count : Nat
  has_primary : Bool
  another_object_count : Nat
  deriving Repr, DecidableEq

/-- `validate_objects` of generate_objects.py, check for check and in
source order.  Note the under-4 "another object" count lands in
`issues`, not `warnings`. -/
def validate_objects (text : String) : Validation :=
  let stripped := (splitOnLit "\n\n".data text.data).map pyStrip
  let paragraphs := stripped.filter (fun p => p ≠ [] ∧ p.length > 20)
  let word_count := pyWordCount text
  let lower : String := ⟨lowerL text.data⟩
  let has_primary :=
    containsSub lower "primary object" || containsSub lower "principal object"
  let issues₁ : List String :=
    if has_primary then []
    else ["Missing 'primary object' paragraph - must start with 'It is the primary object...'"]
  let n := countOccurrences "it is another object".data lower.data
  let issues₂ : List String :=
    if n < 4 then
      ["Too few objects: found " ++ natStr n ++ " 'another object' statements. Need at least 4-8."]
    else []
  let warnings₂ : List String :=
    if n < 4 then []
    else if n > 12 then
      ["Many objects: " ++ natStr n ++ ". Consider consolidating to 5-10."]
    else []
  let warnings₃ : List String :=
    if (dropLit "One or more".data text.data).isSome then []
    else ["Real patents often start with: 'One or more of the problems of the conventional prior arts...'"]
  let issues₄ : List String :=
    (["primary object", "another object", "present invention"] :
        List String).filterMap
      (fun phrase =>
        if containsSub lower phrase then none
        else some ("Missing required phrase: '" ++ phrase ++ "'"))
  let issues₅ : List String :=
    if word_count < 200 then ["Objects section too brief. Should be 250-500 words."]
    else []
  let warnings₅ : List String :=
    if word_count < 200 then []
    else if word_count > 600 then ["Objects section lengthy. Consider conciseness."]
    else []
  let warnings₆ : List String :=
    if (["system", "method", "apparatus", "device", "module"] : List String).any
        (fun w => containsSub lower w) then []
    else ["Include technical category (system, method, apparatus, etc.)"]
  let issues := issues₁ ++ issues₂ ++ issues₄ ++ issues₅
  let warnings := warnings₂ ++ warnings₃ ++ warnings₅ ++ warnings₆
  { valid := issues.length = 0
    issues := issues
    warnings := warnings
    word_count := word_count
    paragraph_count := paragraphs.length
    has_primary := has_primary
    another_object_count := n }

/-- The result dict of `generate_objects_of_invention` (both the
per-attempt dict and the all-attempts-failed fallback share this shape;
the Python fallback dict simply omits `has_primary` and
`another_object_count`, modelled as their zero values here, and the
prompt-only `features` key is omitted). -/
structure Result where
  text : String
  valid : Bool
  issues : List String
  warnings : List String
  word_count : Nat
  paragraph_count : Nat
  has_primary : Bool
  another_object_count : Nat
  attempt : Nat
  score : Nat
  deriving Repr, DecidableEq

/-- The fallback dict returned when every attempt raised:
`{"text": "", ..., "issues": ["Generation failed"], ..., "score": 999}`. -/
def fallbackResult (max_attempts : Nat) : Result :=
  { text := "", valid := false, issues := ["Generation failed"], warnings := []
    word_count := 0, paragraph_count := 0, has_primary := false
    another_object_count := 0, attempt := max_attempts, score := 999 }

/-- Build the attempt result for raw engine text at 0-based index `i`:
the source prepends the priming prefix `"One or more"` to the stripped
engine output before cleaning; score = `20·#issues + 5·#warnings`
(lower is better). -/
def mkResult (i : Nat) (raw : String) : Result :=
  let cleaned := clean_objects ⟨"One or more".data ++ pyStrip raw.data⟩
  let v := validate_objects cleaned
  { text := cleaned, valid := v.valid, issues := v.issues, warnings := v.warnings
    word_count := v.word_count, paragraph_count := v.paragraph_count
    has_primary := v.has_primary, another_object_count := v.another_object_count
    attempt := i + 1, score := 20 * v.issues.length + 5 * v.warnings.length }

/-- Keep the strictly better (lower-score) attempt; `best_score` starts
at `float('inf')`, so the first success always wins, and ties keep the
earlier attempt. -/
def updateBest (best : Option Result) (a : Result) : Option Result :=
  match best with
  | none => some a
  | some b => if a.score < b.score then some a else some b

/-- The retry loop of `generate_objects_of_invention`: an engine
exception is caught and the loop `continue`s; a valid zero-warning
attempt returns immediately; otherwise the lowest-scoring attempt (or
the fallback, when no attempt succeeded) is returned.  Also returns the
list of successfully generated attempts for the theorems. -/
def loop (engine : Nat → Except String String) (maxA : Nat) :
    Nat → Nat → Option Result → List Result → Result × List Result
  | _, 0, best, acc =>
    (match best with | some b => b | none => fallbackResult maxA, acc.reverse)
  | i, fuel + 1, best, acc =>
    match engine i with
    | .error _ => loop engine maxA (i + 1) fuel best acc
    | .ok raw =>
      let a := mkResult i raw
      if a.valid && a.warnings.length = 0 then
        (a, (a :: acc).reverse)
      else
        loop engine maxA (i + 1) fuel (updateBest best a) (a :: acc)

/-- `generate_objects_of_invention`'s control flow over a stubbed engine
(the prompt does not influence the control flow). -/
def generate_objects_of_invention (engine : Nat → Except String String)
    (max_attempts : Nat := 3) : Result × List Result :=
  loop engine max_attempts 0 max_attempts none []

end Objects

/-! ## generate_summary_of_drawings.py — drawing descriptions -/

namespace Drawings

/-- `clean_drawing_description` of generate_summary_of_drawings.py:
strip one leading section header (`^` without MULTILINE anchors only at
the start; alternatives `Brief Description of the Drawings:`,
`Brief Description:`, `BRIEF DESCRIPTION`, case-insensitive, then
greedy `\s*`), then per line: strip, drop empties, uppercase the first
char, ensure a terminal `.` or `;`, and re-join with blank lines. -/
def clean_drawing_description (s : String) : String :=
  let afterHeader :=
    match dropLitCI "Brief Description of the Drawings:".data s.data with
    | some r => dropWs r
    | none =>
      match dropLitCI "Brief Description:".data s.data with
      | some r => dropWs r
      | none =>
        match dropLitCI "BRIEF DESCRIPTION".data s.data with
        | some r => dropWs r
        | none => s.data
  let step (line : List Char) : Option (List Char) :=
    let line := pyStrip line
    if line = [] then none
    else
      let line := match line with
        | c :: rest => if c.isUpper then c :: rest else c.toUpper :: rest
        | [] => []
      let line :=
        if line.getLast? = some '.' ∨ line.getLast? = some ';' then line
        else line ++ ['.']
      some line
  ⟨joinSep "\n\n".data ((splitOnNl afterHeader).filterMap step)⟩

/-- One match of `FIG(?:URE)?\.?\s*\d+[A-Z]?` with `re.IGNORECASE`
(under which `[A-Z]` also matches lowercase): returns the matched text
and the remainder.  The `(?:URE)?` alternative never needs backtracking
here: when `URE` is present but the rest fails, the variant without it
fails on the `U` as well. -/
def figRefMatcher (s : List Char) : Option (List Char × List Char) := do
  let r₁ ← dropLitCI "FIG".data s
  let (ure, r₂) :=
    match dropLitCI "URE".data r₁ with
    | some r => ("URE".data.length, r)
    | none => (0, r₁)
  let (dot, r₃) :=
    match r₂ with
    | '.' :: rest => (1, rest)
    | _ => (0, r₂)
  let (wsRest, _) := dropWsLast r₃ none
  let (_, r₄) ← takeDigits wsRest
  let r₅ :=
    match r₄ with
    | c :: rest => if c.isAlpha then rest else r₄
    | [] => r₄
  let _ := (ure, dot)
  return (s.take (s.length - r₅.length), r₅)

/-- `re.findall` for the figure-reference pattern: non-overlapping
left-to-right matches, full match text collected. -/
def findFigRefs : Nat → List Char → List (List Char)
  | 0, _ => []
  | _ + 1, [] => []
  | fuel + 1, c :: cs =>
    match figRefMatcher (c :: cs) with
    | some (m, rem) => m :: findFigRefs fuel rem
    | none => findFigRefs fuel cs

/-- `int(re.search(r'\d+', fig).group())`: the first digit run of a
matched figure reference. -/
def firstNumberIn (l : List Char) : Option Nat :=
  match l.dropWhile (fun c => !c.isDigit) with
  | [] => none
  | rest => (takeDigits rest).map (fun p => digitsToNat p.1)

/-- Insert into an ascending list (structural insertion sort step). -/
def insertSorted (x : Nat) : List Nat → List Nat
  | [] => [x]
  | y :: ys => if x ≤ y then x :: y :: ys else y :: insertSorted x ys

/-- `sorted(set(xs))`. -/
def sortedSet (xs : List Nat) : List Nat :=
  xs.dedup.foldr insertSorted []

/-- `list(range(1, n + 1))`. -/
def range1To (n : Nat) : List Nat := (List.range n).map (· + 1)

/-- `re.match(r'^FIG(?:URE)?\.?\s*\d+', line, re.IGNORECASE)` as used by
the per-line format check. -/
def lineStartsWithFigRef (line : List Char) : Bool :=
  (figRefMatcher line).isSome

/-- The descriptive verbs sought (as substrings of the lowered line). -/
def descriptiveVerbs : List String :=
  ["illustrates", "shows", "depicts", "is a", "represents", "displays"]

/-- The result dict of `validate_drawing_descriptions`. -/
structure Validation where
  valid : Bool
  issues : List String
  warnings : List String
  figure_count : Nat
  word_count : Nat
  deriving Repr, DecidableEq

/-- `validate_drawing_descriptions` of generate_summary_of_drawings.py,
check for check in source order (the non-sequential-numbering and
too-few-figures checks are warnings there, not issues). -/
def validate_drawing_descriptions (text : String) : Validation :=
  let figures := findFigRefs (text.data.length + 1) text.data
  let issues₁ : List String :=
    if figures = [] then
      ["No figure references found (e.g., 'FIG. 1', 'FIGURE 1')."]
    else []
  let fig_numbers := figures.filterMap firstNumberIn
  let warnSeq : List String :=
    match fig_numbers with
    | [] => []
    | _ =>
      let w₁ :=
        if sortedSet fig_numbers ≠ range1To (fig_numbers.foldl max 0) then
          ["Figure numbers should be sequential (1, 2, 3, ...)."]
        else []
      let w₂ :=
        if fig_numbers.dedup.length < 2 then
          ["Most patents have at least 2-3 figures. Consider adding more views."]
        else []
      w₁ ++ w₂
  let lines := ((splitOnNl text.data).map pyStrip).filter (· ≠ [])
  let lineChecks :=
    (lines.enum.map (fun p =>
      let line := p.2
      let i := p.1
      let lineIssues :=
        (if lineStartsWithFigRef line then []
         else ["Line " ++ natStr (i + 1) ++
           " doesn't start with figure reference (e.g., 'FIG. 1')."]) ++
        (if line.getLast? = some '.' then []
         else ["Line " ++ natStr (i + 1) ++ " should end with a period."])
      let lineWarns :=
        if descriptiveVerbs.any (fun v => infixOfL v.data (lowerL line)) then []
        else ["Line " ++ natStr (i + 1) ++
          " should use descriptive verbs (illustrates, shows, depicts, etc.)."]
      (lineIssues, lineWarns)))
  let word_count := pyWordCount text
  let issues₃ : List String :=
    if word_count < 30 then
      ["Description too brief. Each figure should have adequate description."]
    else []
  let issues := issues₁ ++ (lineChecks.map Prod.fst).flatten ++ issues₃
  let warnings := warnSeq ++ (lineChecks.map Prod.snd).flatten
  { valid := issues.length = 0
    issues := issues
    warnings := warnings
    figure_count := fig_numbers.dedup.length
    word_count := word_count }

/-- The result dict of `generate_drawing_descriptions` (the prompt-only
`suggested_figures` key is omitted from the model). -/
structure Result where
  text : String
  valid : Bool
  issues : List String
  warnings : List String
  figure_count : Nat
  word_count : Nat
  attempt : Nat
  deriving Repr, DecidableEq

/-- The dict returned from the `except` branch: the FIRST engine
exception ends the whole run with this empty-text result. -/
def exceptionResult (e : String) (attempt : Nat) : Result :=
  { text := "", valid := false, issues := ["LLM inference failed: " ++ e]
    warnings := [], figure_count := 0, word_count := 0, attempt := attempt }

/-- The fallback when the loop exhausts without a valid attempt and
`best_result` is still `None`. -/
def exhaustedFallback (max_attempts : Nat) : Result :=
  { text := "", valid := false, issues := ["Failed to generate valid descriptions"]
    warnings := [], figure_count := 0, word_count := 0, attempt := max_attempts }

/-- Build the attempt result for engine text at 0-based index `i`. -/
def mkResult (i : Nat) (raw : String) : Result :=
  let cleaned := clean_drawing_description ⟨pyStrip raw.data⟩
  let v := validate_drawing_descriptions cleaned
  { text := cleaned, valid := v.valid, issues := v.issues, warnings := v.warnings
    figure_count := v.figure_count, word_count := v.word_count, attempt := i + 1 }

/-- `best_result is None or len(issues) < len(best_result["issues"])`. -/
def updateBest (best : Option Result) (a : Result) : Option Result :=
  match best with
  | none => some a
  | some b => if a.issues.length < b.issues.length then some a else some b

/-- The retry loop of `generate_drawing_descriptions`: an engine
exception RETURNS the empty-text exception result immediately (the
`except` branch does not continue the loop); a valid attempt returns
immediately; otherwise the fewest-issues attempt — or the exhausted
fallback — is returned at the end.  Also returns the successfully
generated attempts. -/
def loop (engine : Nat → Except String String) (maxA : Nat) :
    Nat → Nat → Option Result → List Result → Result × List Result
  | _, 0, best, acc =>
    (match best with | some b => b | none => exhaustedFallback maxA, acc.reverse)
  | i, fuel + 1, best, acc =>
    match engine i with
    | .error e => (exceptionResult e (i + 1), acc.reverse)
    | .ok raw =>
      let a := mkResult i raw
      if a.valid then
        (a, (a :: acc).reverse)
      else
        loop engine maxA (i + 1) fuel (updateBest best a) (a :: acc)

/-- `generate_drawing_descriptions`'s control flow over a stubbed
engine. -/
def generate_drawing_descriptions (engine : Nat → Except String String)
    (max_attempts : Nat := 2) : Result × List Result :=
  loop engine max_attempts 0 max_attempts none []

end Drawings

/-! ## generate_brief_description.py — figure-line normalization -/

namespace Brief

/-- `re.sub(r'^[Ff]igure\s*(\d+[A-Z]?)[\s:]*', r'Figure \1: ', line)`:
anchored at the line start, case-sensitive `[Ff]`, greedy `\s*`, digits,
one optional uppercase letter, then any run of whitespace/colons; the
capture is re-emitted as `Figure <capture>: `. -/
def figureWordSub (line : List Char) : List Char :=
  match go line with
  | some out => out
  | none => line
where
  go (l : List Char) : Option (List Char) := do
    let r₁ ←
      match l with
      | 'F' :: rest => dropLit "igure".data rest
      | 'f' :: rest => dropLit "igure".data rest
      | _ => none
    let (r₂, _) := dropWsLast r₁ none
    let (ds, r₃) ← takeDigits r₂
    let (cap, r₄) :=
      match r₃ with
      | c :: rest => if c.isUpper then (ds ++ [c], rest) else (ds, r₃)
      | [] => (ds, r₃)
    let r₅ := r₄.dropWhile (fun c => pyIsSpace c ∨ c = ':')
    return "Figure ".data ++ cap ++ ": ".data ++ r₅

/-- `re.sub(r'^FIG\.?\s*(\d+[A-Z]?)[\s:]*', r'Figure \1: ', line)`
(case-sensitive `FIG`, optional dot). -/
def figAbbrevSub (line : List Char) : List Char :=
  match go line with
  | some out => out
  | none => line
where
  go (l : List Char) : Option (List Char) := do
    let r₁ ← dropLit "FIG".data l
    let r₂ := match r₁ with
      | '.' :: rest => rest
      | _ => r₁
    let (r₃, _) := dropWsLast r₂ none
    let (ds, r₄) ← takeDigits r₃
    let (cap, r₅) :=
      match r₄ with
      | c :: rest => if c.isUpper then (ds ++ [c], rest) else (ds, r₄)
      | [] => (ds, r₄)
    let r₆ := r₅.dropWhile (fun c => pyIsSpace c ∨ c = ':')
    return "Figure ".data ++ cap ++ ": ".data ++ r₆

/-- `clean_brief_description` of generate_brief_description.py: header
removal (MULTILINE), markdown unwrapping, then per line: strip, drop
empties, normalize the leading figure marker to `Figure N: `, ensure a
terminal period, and join with single newlines. -/
def clean_brief_description (s : String) : String :=
  let t := runSubMulti (headerMatcher "BRIEF DESCRIPTION OF THE DRAWINGS".data) s.data
  let t := runSub mdBoldMatcher t
  let t := runSub mdUnderlineMatcher t
  let t := runSub mdStarMatcher t
  let step (line : List Char) : Option (List Char) :=
    let line := pyStrip line
    if line = [] then none
    else
      let line := figAbbrevSub (figureWordSub line)
      let line := if line.getLast? = some '.' then line else line ++ ['.']
      some line
  ⟨joinSep ['\n'] ((splitOnNl t).filterMap step)⟩

/-- One match of the case-sensitive `Figure\s+(\d+[A-Z]?)` pattern of
`validate_brief_description` (`\s+` needs at least one whitespace char);
returns the capture and the remainder after the match. -/
def figCaptureMatcher (s : List Char) : Option (List Char × List Char) := do
  let r₁ ← dropLit "Figure".data s
  let (r₂, _) ← dropWsPlus r₁
  let (ds, r₃) ← takeDigits r₂
  match r₃ with
  | c :: rest => if c.isUpper then some (ds ++ [c], rest) else some (ds, r₃)
  | [] => some (ds, r₃)

/-- `re.findall(r'Figure\s+(\d+[A-Z]?)', text)`: the capture groups of
the non-overlapping matches. -/
def findFigCaptures : Nat → List Char → List (List Char)
  | 0, _ => []
  | _ + 1, [] => []
  | fuel + 1, c :: cs =>
    match figCaptureMatcher (c :: cs) with
    | some (cap, rem) => cap :: findFigCaptures fuel rem
    | none => findFigCaptures fuel cs

/-- The `Figure N` numbers of the text in match order
(`[int(re.match(r'(\d+)', f).group(1)) for f in figure_matches]`). -/
def figureNumbers (text : String) : List Nat :=
  (findFigCaptures (text.data.length + 1) text.data).filterMap
    (fun cap => (takeDigits cap).map (fun p => digitsToNat p.1))

/-- `re.match(r'^Figure\s+\d+[A-Z]?:\s+', line)`. -/
def lineHasFigureMarker (line : List Char) : Bool :=
  (do
    let r₁ ← dropLit "Figure".data line
    let (r₂, _) ← dropWsPlus r₁
    let (_, r₃) ← takeDigits r₂
    let r₄ :=
      match r₃ with
      | c :: rest => if c.isUpper then rest else r₃
      | [] => r₃
    match r₄ with
    | ':' :: rest => dropWsPlus rest
    | _ => none).isSome

/-- The result dict of `validate_brief_description`. -/
structure Validation where
  valid : Bool
  issues : List String
  warnings : List String
  figure_count : Nat
  deriving Repr, DecidableEq

/-- `validate_brief_description` of generate_brief_description.py.  The
sequential-numbering check compares `sorted(set(numbers))` with
`1..max`, so an out-of-order permutation passes it. -/
def validate_brief_description (text : String) : Validation :=
  let figure_numbers := figureNumbers text
  match figure_numbers with
  | [] =>
    { valid := false
      issues := ["No figures found. Must have at least 3-5 figures."]
      warnings := []
      figure_count := 0 }
  | _ =>
    let issues₁ : List String :=
      if Drawings.sortedSet figure_numbers ≠
          Drawings.range1To (figure_numbers.foldl max 0) then
        ["Figures must be numbered sequentially"]
      else []
    let issues₂ : List String :=
      if figure_numbers.dedup.length < 3 then
        ["Need at least 3 figures (minimum for patents)."]
      else []
    let lines := ((splitOnNl text.data).map pyStrip).filter (· ≠ [])
    let lineChecks :=
      lines.enum.map (fun p =>
        let line := p.2
        let i := p.1
        let fig_num := i + 1
        let lineIssues :=
          (if lineHasFigureMarker line then []
           else ["Line " ++ natStr (i + 1) ++ ": Must start with 'Figure X: '"]) ++
          (if line.getLast? = some '.' then []
           else ["Figure " ++ natStr fig_num ++ ": Must end with period"])
        let lineWarns :=
          (if infixOfL "illustrates".data (lowerL line) then []
           else ["Figure " ++ natStr fig_num ++ ": Should use 'illustrates'"]) ++
          (if (["system", "block diagram", "setup", "apparatus", "device"] :
                List String).any (fun w => infixOfL w.data (lowerL line)) then
            (if infixOfL "according to the present invention".data (lowerL line) then []
             else ["Figure " ++ natStr fig_num ++
               ": System figures should end with 'according to the present invention'"])
           else [])
        (lineIssues, lineWarns))
    let issues := issues₁ ++ issues₂ ++ (lineChecks.map Prod.fst).flatten
    let warnings := (lineChecks.map Prod.snd).flatten
    { valid := issues.length = 0
      issues := issues
      warnings := warnings
      figure_count := figure_numbers.dedup.length }

end Brief

/-! ## generate_claims.py — the claims pipeline -/

namespace Claims

/-- A Python error that escapes `generate_claims_from_abstract` (the
`%` by an empty component list in `generate_dependent_claim`). -/
inductive PyError where
  | zeroDivision
  deriving Repr, DecidableEq

/-- The keyword alternation of the first component pattern
`(\w+\s+(?:module|unit|...|condenser))`, in source order. -/
def componentKeywords : List String :=
  ["module", "unit", "component", "sensor", "system", "interface", "engine",
   "processor", "controller", "device", "structure", "line", "tube", "pipe",
   "absorber", "condenser"]

/-- One match of pattern 1 at the current position: greedy `\w+`, then
`\s+`, then the first alternation keyword that is a (case-insensitive)
prefix of the rest; returns the whole matched text and the remainder. -/
def componentMatcher (s : List Char) : Option (List Char × List Char) :=
  match s.span isWordChar with
  | (w, r₁) =>
    if w = [] then none
    else
      match dropWsPlus r₁ with
      | none => none
      | some (r₂, _) =>
        match componentKeywords.findSome? (fun kw => dropLitCI kw.data r₂) with
        | some rem => some (s.take (s.length - rem.length), rem)
        | none => none

/-- `re.findall` for a matcher that returns (matched-or-captured text,
remainder): non-overlapping, left to right. -/
def findAll (m : List Char → Option (List Char × List Char)) :
    Nat → List Char → List (List Char)
  | 0, _ => []
  | _ + 1, [] => []
  | fuel + 1, c :: cs =>
    match m (c :: cs) with
    | some (grp, rem) => grp :: findAll m fuel rem
    | none => findAll m fuel cs

/-- Scan for a case-insensitive literal; on a hit return the remainder
after it. -/
def scanLitCI (pat : List Char) : Nat → List Char → Option (List Char)
  | 0, _ => none
  | _ + 1, [] => none
  | fuel + 1, c :: cs =>
    match dropLitCI pat (c :: cs) with
    | some rem => some rem
    | none => scanLitCI pat fuel cs

/-- One match of `comprising[:\s]+([^.]+)` (IGNORECASE): the capture is
the maximal period-free run (which must be non-empty) after the keyword
and a non-empty run of colons/whitespace. -/
def comprisingMatcher (s : List Char) : Option (List Char × List Char) := do
  let r₁ ← dropLitCI "comprising".data s
  let (sep, r₂) := r₁.span (fun c => c = ':' ∨ pyIsSpace c)
  if sep = [] then none
  else
    let (cap, rem) := r₂.span (· ≠ '.')
    if cap = [] then none else some (cap, rem)

/-- One match of `includes?\s+([^.]+)` (IGNORECASE). -/
def includesMatcher (s : List Char) : Option (List Char × List Char) := do
  let r₁ ← dropLitCI "include".data s
  let r₂ :=
    match r₁ with
    | c :: rest => if c.toLower = 's' then rest else r₁
    | [] => r₁
  match dropWsPlus r₂ with
  | none => none
  | some (r₃, _) =>
    let (cap, rem) := r₃.span (· ≠ '.')
    if cap = [] then none else some (cap, rem)

/-- Python `list(dict.fromkeys(xs))`: deduplicate keeping first
occurrences in order. -/
def dedupKeepFirst (xs : List String) : List String :=
  go xs []
where
  go : List String → List String → List String
    | [], _ => []
    | x :: rest, seen =>
      if seen.contains x then go rest seen else x :: go rest (x :: seen)

/-- `extract_components_from_abstract` of generate_claims.py: the three
pattern scans, `> 5`-length strip filter, order-preserving dedup, `[:10]`
cut, and the article-noun fallback scan when fewer than 4 were found. -/
def extract_components_from_abstract (abstract : String) : List String :=
  let a := abstract.data
  let fuel := a.length + 1
  let raw := findAll componentMatcher fuel a ++
    findAll comprisingMatcher fuel a ++ findAll includesMatcher fuel a
  let stripped := (raw.map pyStrip).filter (fun c => c.length > 5)
  let components := (dedupKeepFirst (stripped.map (fun l => (⟨l⟩ : String)))).take 10
  let components :=
    if components.length < 4 then
      let words := pySplit a
      let extra := (words.zip words.tail).filterMap (fun p =>
        if (["a".data, "an".data, "the".data] : List (List Char)).contains (lowerL p.1) ∧
            p.2.length > 3 then
          some (⟨p.2⟩ : String)
        else none)
      components ++ extra
    else components
  components.take 10

/-- The device-name pattern `A\s+(.+?)\s+(?:comprising|for|system|device)`
(`re.search`, IGNORECASE): positions tried left to right; at a position,
the leading `\s+` backtracks from longest to shortest, the lazy `(.+?)`
grows from one char (never across a newline), the trailing `\s+` is
forced maximal (the alternation starts with letters), alternatives in
source order.  Returns the first capture found. -/
def deviceAlternatives : List String := ["comprising", "for", "system", "device"]

def deviceTailOk (s : List Char) : Bool :=
  match dropWsPlus s with
  | none => false
  | some (r, _) => deviceAlternatives.any (fun alt => (dropLitCI alt.data r).isSome)

def deviceCapAt (afterWs : List Char) : Option (List Char) :=
  go 1 afterWs.length
where
  go (k fuel : Nat) : Option (List Char) :=
    match fuel with
    | 0 => none
    | fuel + 1 =>
      if k > afterWs.length then none
      else
        let cap := afterWs.take k
        if cap.all (· ≠ '\n') ∧ deviceTailOk (afterWs.drop k) then some cap
        else go (k + 1) fuel

def deviceMatchAt (s : List Char) : Option (List Char) :=
  match s with
  | c :: rest =>
    if c.toLower = 'a' then
      let maxRun := (rest.takeWhile pyIsSpace).length
      ((List.range maxRun).map (fun j => maxRun - j)).findSome? (fun k =>
        if k = 0 then none else deviceCapAt (rest.drop k))
    else none
  | [] => none

def deviceSearch : Nat → List Char → Option (List Char)
  | 0, _ => none
  | _ + 1, [] => none
  | fuel + 1, c :: cs =>
    match deviceMatchAt (c :: cs) with
    | some cap => some cap
    | none => deviceSearch fuel cs

/-- The `device_name` of `generate_independent_claim_structured`:
the stripped capture, else `"system"`. -/
def deviceName (abstract : String) : String :=
  match deviceSearch (abstract.data.length + 1) abstract.data with
  | some cap => ⟨pyStrip cap⟩
  | none => "system"

/-- The literal prompt template of
`generate_independent_claim_structured` before the interpolated
abstract. -/
def independentPromptPre : String :=
  "You are a patent attorney. Write ONE independent apparatus claim in proper patent format.\n\nINVENTION: "

/-- The literal prompt template after the interpolated abstract.  Note:
the Python f-string interpolates ONLY the abstract — neither the
`components` nor the `prior_art` parameter appears in it. -/
def independentPromptPost : String :=
  "\n\nREQUIREMENTS:\n1. Start with: \"A [device/system] for [purpose], comprising:\"\n2. List 4-6 key elements WITHOUT letters (no a., b., c.)\n3. Each element on a new line, indented\n4. Use semicolons between elements\n5. Last element ends with a period\n6. Use \"configured to\", \"operable to\" for functions\n\nFORMAT EXAMPLE:\nA loop heat pipe system for cooling electronics, comprising:\na heat absorber configured to absorb heat from an electronic component;\na condenser configured to release heat and condense vapour;\na vapour line connecting the heat absorber to the condenser; and\na capillary tube connecting the condenser to the heat absorber, wherein the capillary tube creates a pressure differential.\n\nNOW WRITE THE INDEPENDENT CLAIM:\nA"

/-- The prompt `generate_independent_claim_structured` sends to the
engine, as a function of all three of its inputs. -/
def independentClaimPrompt (abstract : String) (_components : List String)
    (_prior_art : String) : String :=
  independentPromptPre ++ abstract ++ independentPromptPost

/-- `prior_abstracts`: the "Prior Art i: <first 180 chars, stripped>..."
lines joined by newlines (the retrieval index is modelled as returning
the stored abstracts directly). -/
def buildPriorAbstracts (excerpts : List String) : String :=
  ⟨joinSep ['\n'] (excerpts.enum.map (fun p =>
    "Prior Art ".data ++ (natStr (p.1 + 1)).data ++ ": ".data ++
      pyStrip (p.2.data.take 180) ++ "...".data))⟩

/-- `create_fallback_elements_unlettered` of generate_claims.py. -/
def create_fallback_elements_unlettered (components : List String) : List String :=
  let cs := components.take 5
  cs.enum.map (fun p =>
    let comp_clean : String := ⟨pyStrip p.2.data⟩
    if p.1 = cs.length - 1 then
      comp_clean ++ " configured to perform operations related to the system."
    else
      comp_clean ++ " configured to interact with the system;")

/-- `re.split(r'comprising:', text, flags=re.IGNORECASE)`. -/
def splitComprising (l : List Char) : List (List Char) :=
  go (l.length + 1) l []
where
  go : Nat → List Char → List Char → List (List Char)
    | 0, rest, acc => [acc.reverse ++ rest]
    | fuel + 1, rest, acc =>
      match rest with
      | [] => [acc.reverse]
      | c :: cs =>
        match dropLitCI "comprising:".data rest with
        | some rem => acc.reverse :: go fuel rem []
        | none => go fuel cs (c :: acc)

/-- `re.split(r';|\n', text)`. -/
def splitElems (l : List Char) : List (List Char) :=
  go l []
where
  go : List Char → List Char → List (List Char)
    | [], acc => [acc.reverse]
    | c :: cs, acc =>
      if c = ';' ∨ c = '\n' then acc.reverse :: go cs [] else go cs (c :: acc)

/-- The structured independent claim dict. -/
structure IndependentClaim where
  preamble : String
  elements : List String
  device_name : String
  deriving Repr, DecidableEq

/-- `generate_independent_claim_structured` of generate_claims.py:
engine exceptions and missing `comprising:` fall back to generic
elements built from the components; `prior_art` is accepted and unused
(exactly as in the source). -/
def generate_independent_claim_structured (abstract : String)
    (components : List String) (_prior_art : String)
    (engine : Except String String) : IndependentClaim :=
  let device_name := deviceName abstract
  match engine with
  | .error _ =>
    { preamble := "A " ++ device_name ++ " for performing operations, comprising:"
      elements := create_fallback_elements_unlettered components
      device_name := device_name }
  | .ok out =>
    let claim_text : String := "A" ++ ⟨pyStrip out.data⟩
    let parts := splitComprising claim_text.data
    match parts with
    | p₀ :: p₁ :: _ =>
      let preamble : String := ⟨pyStrip p₀⟩ ++ ", comprising:"
      let elements_text := pyStrip p₁
      let elements := ((splitElems elements_text).map pyStrip).filter (· ≠ [])
      let elements : List String :=
        if elements.length < 3 then create_fallback_elements_unlettered components
        else elements.map (fun l => (⟨l⟩ : String))
      { preamble := preamble, elements := elements, device_name := device_name }
    | _ =>
      { preamble := "A " ++ device_name ++ " for performing operations, comprising:"
        elements := create_fallback_elements_unlettered components
        device_name := device_name }

/-- `depends_on` of `generate_dependent_claim`: claims 4 and 6 depend on
the previous claim, all others on claim 1. -/
def dependsOn (claim_num : Nat) : Nat :=
  if claim_num = 4 ∨ claim_num = 6 then claim_num - 1 else 1

/-- `generate_dependent_claim` of generate_claims.py.  The statement
`element_index = (claim_num - 2) % len(components)` runs BEFORE the
`try`, so an empty component list raises `ZeroDivisionError` to the
caller.  An engine exception (or a generated text that fails to mention
its parent claim) is replaced by a deterministic fallback sentence. -/
def generate_dependent_claim (claim_num : Nat) (components : List String)
    (device_name : String) (engine : Except String String) :
    Except PyError String :=
  if h : components.length = 0 then .error .zeroDivision
  else
    let element_index := (claim_num - 2) % components.length
    let component : String :=
      ⟨pyStrip (components.get ⟨element_index,
        Nat.mod_lt _ (Nat.pos_of_ne_zero h)⟩).data⟩
    let dep := dependsOn claim_num
    match engine with
    | .error _ =>
      .ok ("The " ++ device_name ++ " as claimed in claim " ++ natStr dep ++
        ", wherein the " ++ component ++ " provides additional functionality.")
    | .ok out =>
      let claim_text : String := "The" ++ ⟨pyStrip out.data⟩
      let claim_text :=
        if containsSub ⟨lowerL claim_text.data⟩ ("claim " ++ natStr dep) then
          claim_text
        else
          "The " ++ device_name ++ " as claimed in claim " ++ natStr dep ++
            ", wherein the " ++ component ++
            " is configured to provide enhanced functionality."
      let claim_text :=
        if claim_text.data.getLast? = some '.' then claim_text
        else claim_text ++ "."
      .ok claim_text

/-- `generate_method_claim` of generate_claims.py. -/
def generate_method_claim (device_name : String)
    (engine : Except String String) : String :=
  match engine with
  | .error _ =>
    "A method for using the " ++ device_name ++
      " as claimed in claim 1, comprising steps of operating the system according to its intended purpose."
  | .ok out =>
    let claim_text : String := "A method for" ++ ⟨pyStrip out.data⟩
    if claim_text.data.getLast? = some '.' then claim_text else claim_text ++ "."

end Claims

/-! ### `textwrap.wrap` (width 65, `break_long_words=False`,
`break_on_hyphens=False`) as the source calls it -/

/-- Python `str.expandtabs()` (tab stops every 8 columns; newline and
carriage return reset the column). -/
def expandTabs : List Char → Nat → List Char
  | [], _ => []
  | c :: cs, col =>
    if c = '\t' then
      let n := 8 - col % 8
      List.replicate n ' ' ++ expandTabs cs (col + n)
    else if c = '\n' ∨ c = '\r' then c :: expandTabs cs 0
    else c :: expandTabs cs (col + 1)

/-- Chunking after whitespace replacement: maximal runs of spaces and of
non-spaces, in order (`break_on_hyphens=False` splits only on
whitespace). -/
def toChunksAux : Nat → List Char → List (List Char)
  | 0, _ => []
  | _ + 1, [] => []
  | fuel + 1, c :: cs =>
    let isSp := c = ' '
    match (c :: cs).span (fun x => (x = ' ') = isSp) with
    | (run, rest) => run :: toChunksAux fuel rest

def toChunks (l : List Char) : List (List Char) := toChunksAux (l.length + 1) l

/-- Greedy line fill: take chunks while the accumulated length stays
within the width. -/
def fillChunks (w : Nat) : List (List Char) → List (List Char) → Nat →
    List (List Char) × List (List Char)
  | [], acc, _ => (acc.reverse, [])
  | ch :: rest, acc, len =>
    if len + ch.length ≤ w then fillChunks w rest (ch :: acc) (len + ch.length)
    else (acc.reverse, ch :: rest)

/-- Whether a chunk is whitespace (`chunk.strip() == ''`). -/
def isWsChunk (ch : List Char) : Bool := ch.all (· = ' ')

/-- The `_wrap_chunks` loop of CPython's textwrap with
`drop_whitespace=True`, `break_long_words=False`, `initial_indent=''`
and the given `subsequent_indent`. -/
def wrapChunksLoop (width : Nat) (subIndent : List Char) :
    Nat → List (List Char) → List (List Char) → List (List Char)
  | 0, _, lines => lines.reverse
  | fuel + 1, chunks, lines =>
    match chunks with
    | [] => lines.reverse
    | _ =>
      let indent := if lines = [] then [] else subIndent
      let w := width - indent.length
      let chunks :=
        match chunks, lines with
        | ch :: rest, _ :: _ => if isWsChunk ch then rest else chunks
        | _, _ => chunks
      let (cur, rest) := fillChunks w chunks [] 0
      let (cur, rest) :=
        match cur, rest with
        | [], ch :: rest' => if ch.length > w then ([ch], rest') else ([], rest)
        | _, _ => (cur, rest)
      let cur :=
        match cur.getLast? with
        | some ch => if isWsChunk ch then cur.dropLast else cur
        | none => cur
      let lines :=
        if cur ≠ [] then (indent ++ cur.flatten) :: lines else lines
      wrapChunksLoop width subIndent fuel rest lines

/-- `textwrap.wrap(text, width, break_long_words=False,
break_on_hyphens=False, subsequent_indent=...)`. -/
def pyWrap (width : Nat) (subIndent : String) (text : String) : List (List Char) :=
  let t := (expandTabs text.data 0).map (fun c => if pyIsSpace c then ' ' else c)
  let chunks := toChunks t
  wrapChunksLoop width subIndent.data (chunks.length + 1) chunks []

namespace Claims

/-- `f"{n:>5}"`: the line numbers printed on the right margin. -/
def padLeft5 (n : Nat) : List Char :=
  let s := (natStr n).data
  List.replicate (5 - s.length) ' ' ++ s

/-- The output accumulator of `format_claims_patent_office_style`
(`output`, `line_counter`). -/
structure FmtState where
  out : List Char
  counter : Nat
  deriving Repr, DecidableEq

/-- Emit one content line: append it, append the right-margin line
number when `line_counter % 5 == 0`, newline, bump the counter. -/
def emitLine (st : FmtState) (line : List Char) : FmtState :=
  let o := st.out ++ line
  let o := if st.counter % 5 = 0 then o ++ padLeft5 st.counter else o
  { out := o ++ ['\n'], counter := st.counter + 1 }

/-- Append text without counting a line (the blank separators and the
footer). -/
def emitRaw (st : FmtState) (txt : List Char) : FmtState :=
  { st with out := st.out ++ txt }

/-- The per-element transformation in the claim-1 loop: strip, and for
the last element ensure a leading `and ` (converting a trailing `;` into
`.` first). -/
def prepElement (isLast : Bool) (element : String) : String :=
  let e : String := ⟨pyStrip element.data⟩
  if isLast ∧ ¬(dropLit "and ".data e.data).isSome then
    let e : String :=
      if e.data.getLast? = some ';' then
        ⟨pyStrip (pyRStripChars [';'] e.data)⟩ ++ "."
      else e
    "and " ++ e
  else e

/-- `format_claims_patent_office_style` of generate_claims.py: the
`Claims` / `We Claim` headers, claim 1 with its elements wrapped at 65
and indented three spaces, dependent claims 2–9 and the method claim 10
wrapped with a three-space hanging indent, right-margin line numbers
every 5 lines, and the date footer (the `datetime.now()` parts are
parameters). -/
def format_claims_patent_office_style (ic : IndependentClaim)
    (dependent_claims : List String) (method_claim : String)
    (day : Nat) (month : String) (year : Nat) : String :=
  let st : FmtState := { out := "Claims\n\nWe Claim\n\n".data, counter := 1 }
  let st := emitLine st ("1. ".data ++ ic.preamble.data)
  let n := ic.elements.length
  let st := ic.elements.enum.foldl (fun st p =>
    let element := prepElement (p.1 = n - 1) p.2
    let wrapped := pyWrap 65 "" element
    wrapped.foldl (fun st line => emitLine st ("   ".data ++ line)) st) st
  let st := emitRaw st ['\n']
  let st := dependent_claims.enum.foldl (fun st p =>
    let claim_text : String := natStr (p.1 + 2) ++ ". " ++ p.2
    let wrapped := pyWrap 65 "   " claim_text
    let st := wrapped.foldl (fun st line => emitLine st line) st
    emitRaw st ['\n']) st
  let st :=
    let claim_text : String := "10. " ++ method_claim
    let wrapped := pyWrap 65 "   " claim_text
    let st := wrapped.foldl (fun st line => emitLine st line) st
    emitRaw st ['\n']
  let st := emitRaw st ("Dated this ".data ++ (natStr day).data ++
    " day of ".data ++ month.data ++ [' '] ++ (natStr year).data ++ ['\n'])
  ⟨st.out⟩

/-- `generate_claims_from_abstract` of generate_claims.py over stubbed
collaborators: the retrieval index (`.error` = the `try` around the
FAISS lookup caught an exception and set `prior_abstracts = ""`), one
engine outcome for the independent claim, one per dependent claim
number, one for the method claim, and the date parts.  The result is
`Except PyError String` because `generate_dependent_claim` can raise
`ZeroDivisionError` outside its own `try` when no component was
extracted. -/
def generate_claims_from_abstract (abstract : String)
    (retrieval : Except String (List String))
    (engineIndep : Except String String)
    (engineDep : Nat → Except String String)
    (engineMethod : Except String String)
    (day : Nat) (month : String) (year : Nat) : Except PyError String :=
  let prior_abstracts :=
    match retrieval with
    | .ok ex => buildPriorAbstracts ex
    | .error _ => ""
  let components := extract_components_from_abstract abstract
  let ic := generate_independent_claim_structured abstract components
    prior_abstracts engineIndep
  do
    let deps ← (List.range 8).mapM (fun k =>
      generate_dependent_claim (k + 2) components ic.device_name
        (engineDep (k + 2)))
    let method := generate_method_claim ic.device_name engineMethod
    return format_claims_patent_office_style ic deps method day month year

end Claims

/-! ## generate_detailed_description.py -/

namespace Detailed

/-- Matcher for `\n{4,}` replaced by a double newline. -/
def nlRun4Matcher (s : List Char) : Option (List Char × List Char) :=
  match s.span (· = '\n') with
  | (ns, rest) =>
    if 4 ≤ ns.length then some ("\n\n".data, rest) else none

/-- `re.sub(r'^(DETAILED DESCRIPTION.*?\n){1,}', '', text, IGNORECASE)`:
without MULTILINE this strips the maximal run of LEADING lines that each
start with `DETAILED DESCRIPTION` (case-insensitive) and end in a
newline. -/
def stripDetailedHeader : Nat → List Char → List Char
  | 0, s => s
  | fuel + 1, s =>
    match dropLitCI "DETAILED DESCRIPTION".data s with
    | none => s
    | some r =>
      match r.dropWhile (· ≠ '\n') with
      | '\n' :: rest => stripDetailedHeader fuel rest
      | _ => s

/-- `clean_detailed_description` of generate_detailed_description.py. -/
def clean_detailed_description (s : String) : String :=
  let t := stripDetailedHeader (s.data.length + 1) s.data
  let t := runSub nlRun4Matcher t
  let t := runSub spaceRunMatcher t
  ⟨pyStrip t⟩

/-- `re.search(r'\[\d+[a-z]?\]', text)`: a bracketed reference numeral
(optionally with one lowercase letter). -/
def hasRefNumeral : List Char → Bool
  | [] => false
  | c :: cs =>
    (match c :: cs with
     | '[' :: r =>
       match takeDigits r with
       | some (_, rest) =>
         (match rest with
          | ']' :: _ => true
          | x :: ']' :: _ => x.isLower
          | _ => false)
       | none => false
     | _ => false)
    || hasRefNumeral cs

/-- The result dict of `validate_detailed_description`. -/
structure Validation where
  valid : Bool
  issues : List String
  warnings : List String
  word_count : Nat
  has_reference_numerals : Bool
  has_working_section : Bool
  has_use_cases : Bool
  has_embodiments : Bool
  deriving Repr, DecidableEq

/-- `validate_detailed_description` of generate_detailed_description.py
(its `components` parameter is unused by the checks). -/
def validate_detailed_description (text : String) : Validation :=
  let word_count := pyWordCount text
  let lower : String := ⟨lowerL text.data⟩
  let issues₁ : List String :=
    if word_count < 1000 then
      ["Detailed description too brief. Should be 1500-3000+ words."]
    else []
  let has_numerals := hasRefNumeral text.data
  let issues₂ : List String :=
    if has_numerals then []
    else ["Missing reference numerals (e.g., [1], [2], [3a]). Must reference components throughout."]
  let has_working := containsSub lower "working:"
  let has_use_cases := containsSub lower "use case"
  let has_embodiments := containsSub lower "embodiment"
  let has_referring := containsSub lower "referring to figure"
  let issues₃ : List String :=
    if has_referring then []
    else ["Must start with 'Referring to Figures X to Y, the [system]...'"]
  let warnings : List String :=
    (if has_working then [] else ["Should include 'Working:' section describing step-by-step operation"]) ++
    (if has_use_cases then [] else ["Consider adding 'Use case' scenarios (3-5 real-world applications)"]) ++
    (if has_embodiments then [] else ["Should include 'In an embodiment,' and 'In another embodiment,' clauses"]) ++
    (if containsSub lower "comprises" || containsSub lower "comprising" then []
     else ["Use 'comprises' or 'comprising' to describe components"]) ++
    (if containsSub lower "configured to" then []
     else ["Use 'configured to' to describe component functions"])
  let issues := issues₁ ++ issues₂ ++ issues₃
  { valid := issues.length = 0
    issues := issues
    warnings := warnings
    word_count := word_count
    has_reference_numerals := has_numerals
    has_working_section := has_working
    has_use_cases := has_use_cases
    has_embodiments := has_embodiments }

/-- The result dict of `generate_detailed_description` (the Python
fallback dict omits the `has_*` and `score` keys, modelled as zero
values; the prompt-side `components` key is omitted). -/
structure Result where
  text : String
  valid : Bool
  issues : List String
  warnings : List String
  word_count : Nat
  has_reference_numerals : Bool
  has_working_section : Bool
  has_use_cases : Bool
  has_embodiments : Bool
  attempt : Nat
  score : Nat
  deriving Repr, DecidableEq

/-- The all-attempts-failed fallback. -/
def fallbackResult (max_attempts : Nat) : Result :=
  { text := "", valid := false
    issues := ["Generation failed - section too complex for current model"]
    warnings := [], word_count := 0, has_reference_numerals := false
    has_working_section := false, has_use_cases := false
    has_embodiments := false, attempt := max_attempts, score := 0 }

/-- Build the attempt result at 0-based index `i` (the source prepends
the priming prefix to the engine output before cleaning). -/
def mkResult (i : Nat) (raw : String) : Result :=
  let cleaned := clean_detailed_description
    ("The present invention as herein described relates to" ++ ⟨pyStrip raw.data⟩)
  let v := validate_detailed_description cleaned
  { text := cleaned, valid := v.valid, issues := v.issues, warnings := v.warnings
    word_count := v.word_count, has_reference_numerals := v.has_reference_numerals
    has_working_section := v.has_working_section, has_use_cases := v.has_use_cases
    has_embodiments := v.has_embodiments, attempt := i + 1
    score := 20 * v.issues.length + 5 * v.warnings.length }

/-- Strictly-lower-score update (ties keep the earlier attempt). -/
def updateBest (best : Option Result) (a : Result) : Option Result :=
  match best with
  | none => some a
  | some b => if a.score < b.score then some a else some b

/-- The retry loop of `generate_detailed_description`: each iteration
performs one engine call (counted); exceptions are absorbed
(`continue`), a valid attempt returns immediately, else the
lowest-scoring attempt or the fallback is returned.  Returns the result
and the number of engine calls performed. -/
def loop (engine : Nat → Except String String) (maxA : Nat) :
    Nat → Nat → Option Result → Nat → Result × Nat
  | _, 0, best, calls =>
    (match best with | some b => b | none => fallbackResult maxA, calls)
  | i, fuel + 1, best, calls =>
    match engine i with
    | .error _ => loop engine maxA (i + 1) fuel best (calls + 1)
    | .ok raw =>
      let a := mkResult i raw
      if a.valid then (a, calls + 1)
      else loop engine maxA (i + 1) fuel (updateBest best a) (calls + 1)

/-- `generate_detailed_description`'s control flow: NOTE it performs no
precondition check on its `claims` argument — the prompt is built and
the engine called no matter what the caller passed. -/
def generate_detailed_description (_abstract _claims _drawing_summary : String)
    (engine : Nat → Except String String) (max_attempts : Nat := 2) :
    Result × Nat :=
  loop engine max_attempts 0 max_attempts none 0

end Detailed

/-! ## app.py — the two guarded button handlers -/

namespace App

/-- What the Detailed-Description button handler does, as observed by
the user.  `raisedException` models an exception escaping the handler to
the caller: the source never produces it (the missing-claims branch
shows `st.warning` and the `except` branch shows `st.error`), but the
constructor makes the spec's `MissingContextError` claim statable. -/
inductive DetailedOutcome where
  | warnedMissingClaims
  | success (text : String)
  | tooShort (text : String)
  | errorShown (msg : String)
  | raisedException (name : String)
  deriving Repr, DecidableEq

/-- The `📝 Detailed Description` button handler of app.py (lines
160–205): if the session has no Claims text, show a warning and do
nothing else; otherwise call `generate_detailed_description` and store
the result (flagging texts of 50 chars or less).  Returns the outcome
and the number of generation-engine calls performed. -/
def detailedDescriptionHandler (claims_state abstract drawing_summary : String)
    (engine : Nat → Except String String) : DetailedOutcome × Nat :=
  if claims_state = "" then
    (.warnedMissingClaims, 0)
  else
    let drawings_text :=
      if drawing_summary ≠ "" ∧ pyStrip drawing_summary.data ≠ [] then
        drawing_summary
      else "No drawings provided."
    let (result, calls) :=
      Detailed.generate_detailed_description abstract claims_state drawings_text engine
    if result.text ≠ "" ∧ result.text.data.length > 50 then
      (.success result.text, calls)
    else
      (.tooShort result.text, calls)

/-- The five session keys the `✅ Run 5-Agent Verification` handler
requires (note the abstract's session key is `abstract_input`). -/
def requiredSections : List String :=
  ["title", "claims", "abstract_input", "background", "summary"]

/-- The verification-relevant session state. -/
structure Session where
  title : String
  claims : String
  abstract_input : String
  background : String
  summary : String
  deriving Repr, DecidableEq

/-- `st.session_state.get(key)` for the five keys (empty string =
missing/falsy). -/
def sectionValue (s : Session) (key : String) : String :=
  if key = "title" then s.title
  else if key = "claims" then s.claims
  else if key = "abstract_input" then s.abstract_input
  else if key = "background" then s.background
  else if key = "summary" then s.summary
  else ""

/-- `missing = [s for s in required if not st.session_state.get(s)]`. -/
def missingSections (s : Session) : List String :=
  requiredSections.filter (fun k => sectionValue s k = "")

/-- What the verification button handler does.  `ran` carries the dict
passed to `verify_patent_5_sections` (whose `abstract` entry is the
`abstract_input` session value); `raisedException` models an exception
escaping the handler, which the source never produces. -/
inductive VerifyOutcome where
  | warnedMissing (message : String)
  | ran (title abstract claims background summary : String)
  | raisedException (name : String)
  deriving Repr, DecidableEq

/-- The `✅ Run 5-Agent Verification` button handler of app.py (lines
271–294): with any required section empty it warns, naming exactly the
missing session keys, and never invokes the verifier; otherwise it runs
`verify_patent_5_sections` once.  Returns the outcome and the number of
verifier invocations. -/
def verificationHandler (s : Session) : VerifyOutcome × Nat :=
  let missing := missingSections s
  if missing ≠ [] then
    (.warnedMissing ("⚠️ Please generate these sections first: " ++
      ⟨joinSep ", ".data (missing.map String.data)⟩), 0)
  else
    (.ran s.title s.abstract_input s.claims s.background s.summary, 1)

end App

/-! ## Concrete stub inputs used by the counterexamples and witnesses -/

namespace Examples

/-- A title engine whose first attempt is a one-word title (scoring
`−30`) and whose second is a valid 8-word title with one warning
(scoring `115`, no early stop). -/
def titleEng : Nat → Except String String := fun i =>
  if i = 0 then .ok "x"
  else .ok "Sensor Array Irrigation Predictive Control Flow Harvest Water"

/-- A drawings engine that raises on attempt 1 and would return a
perfectly valid two-figure description on attempt 2. -/
def drawEngFailFirst : Nat → Except String String := fun i =>
  if i = 0 then .error "device out of memory"
  else .ok "FIG. 1 is a block diagram illustrating an overview of the wireless communication system according to embodiments of the invention.\nFIG. 2 is a schematic diagram showing the internal components of the transmitter module in detail."

/-- A drawings engine whose attempt 1 returns non-empty (but invalid)
text and whose attempt 2 raises. -/
def drawEngFailSecond : Nat → Except String String := fun i =>
  if i = 0 then .ok "FIG. 1 is a diagram"
  else .error "device out of memory"

/-- An objects engine: attempt 1 raises, attempts 2 and 3 return short
(invalid) texts with different scores. -/
def objEng : Nat → Except String String := fun i =>
  if i = 0 then .error "boom"
  else if i = 1 then .ok " of the problems may be overcome. It is the primary object of the present invention to provide a system."
  else .ok "x"

/-- An engine that always raises. -/
def allFailEng : Nat → Except String String := fun _ => .error "boom"

/-- An objects text with exactly 2 `It is another object` statements and
every other hard requirement satisfied (≥ 200 words, primary object,
required phrases, `One or more` opening, a technical category). -/
def objTwoStatements : String :=
  "One or more of the problems of the conventional prior arts may be overcome by various embodiments of the system and method of the present invention.\n\nIt is the primary object of the present invention to provide a system for monitoring a field using sensors and reporting the collected data to a remote server for analysis and storage over a wireless network channel.\n\nIt is another object of the present invention to provide a module that stores the collected data in a local buffer whenever the wireless network channel is unavailable and forwards the buffered data to the remote server when the wireless network channel becomes available again.\n\nIt is another object of the present invention to provide a module that compares the collected data against configured thresholds and generates an alert message for the operator whenever a measured value exceeds a configured threshold for a sustained period of time.\n\nThe monitoring module reads each sensor in turn and records the measured value together with a timestamp in the local buffer before the reporting module transmits the recorded values to the remote server in batches of a fixed size in order to reduce the number of transmissions and the energy consumed by the radio during each reporting cycle of the deployment."

/-- The out-of-order drawing description of the sequential-marker
scenario: figure numbers 3, 1, 2 in document order. -/
def outOfOrderBrief : String :=
  "Figure 3: illustrates a.\nFigure 1: illustrates b.\nFigure 2: illustrates c."

/-- The session state of the verification-precondition scenario: only
title and claims present. -/
def titleClaimsOnly : App.Session :=
  { title := "T", claims := "C", abstract_input := "", background := "", summary := "" }

/-- Three prior-art excerpts (containing a `~`, a character that occurs
nowhere in the claims prompt template). -/
def priorArtStub : List String :=
  ["prior~art~excerpt~one", "prior~art~excerpt~two", "prior~art~excerpt~three"]

/-- A title engine that always returns the same valid 8-word title with
one warning (score `115`). -/
def titleOneShotEng : Nat → Except String String := fun _ =>
  .ok "Sensor Array Irrigation Predictive Control Flow Harvest Water"

/-- An abstract from which `extract_components_from_abstract` extracts a
non-empty component list. -/
def sensorAbstract : String :=
  "A sensor system comprising a sensor module and a control unit."

end Examples

/-! ## Helper lemmas -/

/-- `dropWhile` over an append whose second part starts with a
non-dropped element. -/
theorem dropWhile_append_cons_of_neg {p : Char → Bool} {xs : List Char} {c : Char}
    {ys : List Char} (hc : p c = false) :
    (xs ++ c :: ys).dropWhile p = xs.dropWhile p ++ c :: ys := by
  induction xs with
  | nil => simp [List.dropWhile, hc]
  | cons x xs ih =>
    by_cases hx : p x
    · simpa [List.dropWhile, hx] using ih
    · simp [List.dropWhile, hx]

/-- `pyStrip` of a list starting with a non-space char keeps that char
in front. -/
theorem pyStrip_cons_of_not_space {c : Char} (hc : pyIsSpace c = false)
    (l : List Char) :
    pyStrip (c :: l) = c :: (l.reverse.dropWhile pyIsSpace).reverse := by
  unfold pyStrip
  rw [List.dropWhile_cons_of_neg (by simp [hc])]
  rw [show (c :: l).reverse = l.reverse ++ c :: [] from by simp]
  rw [dropWhile_append_cons_of_neg hc]
  simp

/-- A string whose char list starts with a non-space char survives
`pyStrip` non-empty. -/
theorem pyStrip_cons_ne_nil {c : Char} (hc : pyIsSpace c = false)
    (l : List Char) : pyStrip (c :: l) ≠ [] := by
  rw [pyStrip_cons_of_not_space hc]
  simp

/-- `subScanR` over a prefix on which the matcher either fails or
consumes a segment of the prefix and replaces it with itself: the prefix
survives verbatim. -/
theorem subScanR_append (m : List Char → Option (List Char × List Char)) :
    ∀ (fuel : Nat) (pfx t : List Char),
      (∀ k t', k < pfx.length →
        m (pfx.drop k ++ t') = none ∨
        ∃ pre suf, pfx.drop k = pre ++ suf ∧ pre ≠ [] ∧
          m (pfx.drop k ++ t') = some (pre, suf ++ t')) →
      ∃ u, subScanR m fuel (pfx ++ t) = pfx ++ u := by
  intro fuel
  induction fuel with
  | zero =>
    intro pfx t _
    exact ⟨t, rfl⟩
  | succ f ih =>
    intro pfx t hm
    match pfx with
    | [] => exact ⟨subScanR m (f + 1) t, by simp⟩
    | c :: ps =>
      have h0 := hm 0 t (by simp)
      simp only [List.drop_zero] at h0
      rcases h0 with hnone | ⟨pre, suf, hsplit, hpre, hsome⟩
      · have step : subScanR m (f + 1) (c :: (ps ++ t)) =
            c :: subScanR m f (ps ++ t) := by
          simp only [subScanR]
          rw [show c :: ps ++ t = c :: (ps ++ t) from rfl] at hnone
          simp [hnone]
        obtain ⟨u, hu⟩ := ih ps t
          (fun k t' hk => by
            have := hm (k + 1) t' (by simpa using Nat.succ_lt_succ hk)
            simpa using this)
        exact ⟨u, by
          show subScanR m (f + 1) (c :: (ps ++ t)) = c :: (ps ++ u)
          rw [step, hu]⟩
      · have step : subScanR m (f + 1) (c :: (ps ++ t)) =
            pre ++ subScanR m f (suf ++ t) := by
          simp only [subScanR]
          rw [show c :: ps ++ t = c :: (ps ++ t) from rfl] at hsome
          simp [hsome]
        have hpre1 : 1 ≤ pre.length := by
          match pre, hpre with
          | x :: xs, _ => simp
        have hlen1 : (c :: ps).length = pre.length + suf.length := by
          rw [hsplit]; simp
        have hdrop : ∀ k, suf.drop k = (c :: ps).drop (pre.length + k) := by
          intro k
          rw [hsplit, List.drop_append_eq_append_drop]
          simp
        obtain ⟨u, hu⟩ := ih suf t
          (fun k t' hk => by
            rw [hdrop k]
            exact hm (pre.length + k) t' (by
              simp only [List.length_cons] at hlen1 ⊢
              omega))
        refine ⟨u, ?_⟩
        show subScanR m (f + 1) (c :: (ps ++ t)) = (c :: ps) ++ u
        rw [step, hu, ← List.append_assoc, ← hsplit]

/-- `subMulti` with `atStart = false` walks a newline-free prefix
without ever trying the matcher. -/
theorem subMulti_false_append (m : List Char → Option (List Char × Bool)) :
    ∀ (pfx : List Char) (fuel : Nat) (t : List Char),
      '\n' ∉ pfx →
      ∃ u, subMulti m fuel false (pfx ++ t) = pfx ++ u := by
  intro pfx
  induction pfx with
  | nil => exact fun fuel t _ => ⟨subMulti m fuel false t, rfl⟩
  | cons c ps ih =>
    intro fuel t hnl
    match fuel with
    | 0 => exact ⟨t, rfl⟩
    | f + 1 =>
      have hc : c ≠ '\n' := fun h => hnl (h ▸ List.mem_cons_self c ps)
      have step : subMulti m (f + 1) false (c :: (ps ++ t)) =
          c :: subMulti m f false (ps ++ t) := by
        simp [subMulti, hc]
      obtain ⟨u, hu⟩ := ih f t (fun h => hnl (List.mem_cons_of_mem c h))
      exact ⟨u, by
        show subMulti m (f + 1) false (c :: (ps ++ t)) = c :: (ps ++ u)
        rw [step, hu]⟩

/-- `subMulti` over a newline-free prefix the matcher rejects: only
position 0 is a line start, so one rejected try and the prefix survives
verbatim. -/
theorem subMulti_append (m : List Char → Option (List Char × Bool))
    (pfx : List Char) (fuel : Nat) (t : List Char) (atStart : Bool)
    (hm : ∀ t', m (pfx ++ t') = none) (hnl : '\n' ∉ pfx) :
    ∃ u, subMulti m fuel atStart (pfx ++ t) = pfx ++ u := by
  match pfx, fuel with
  | [], fuel => exact ⟨subMulti m fuel atStart t, rfl⟩
  | c :: ps, 0 => exact ⟨t, rfl⟩
  | c :: ps, f + 1 =>
    have hc : c ≠ '\n' := fun h => hnl (h ▸ List.mem_cons_self c ps)
    have hnl' : '\n' ∉ ps := fun h => hnl (List.mem_cons_of_mem c h)
    obtain ⟨u, hu⟩ := subMulti_false_append m ps f t hnl'
    refine ⟨u, ?_⟩
    show subMulti m (f + 1) atStart (c :: (ps ++ t)) = c :: (ps ++ u)
    match atStart with
    | true =>
      have h0 : m (c :: (ps ++ t)) = none := hm t
      simp only [subMulti, h0]
      simp [hc, hu]
    | false =>
      simp only [subMulti]
      simp [hc, hu]

/-- The priming prefix of the Objects section. -/
def oneOrMore : List Char := "One or more".data

/-- A `runSub` stage whose matcher, at every position inside
`oneOrMore`, either fails or consumes a self-replacing segment,
preserves the prefix. -/
theorem runSub_oneOrMore (m : List Char → Option (List Char × List Char))
    (hm : ∀ k t', k < oneOrMore.length →
      m (oneOrMore.drop k ++ t') = none ∨
      ∃ pre suf, oneOrMore.drop k = pre ++ suf ∧ pre ≠ [] ∧
        m (oneOrMore.drop k ++ t') = some (pre, suf ++ t'))
    (s : List Char) (hs : ∃ v, s = oneOrMore ++ v) :
    ∃ u, runSub m s = oneOrMore ++ u := by
  obtain ⟨v, rfl⟩ := hs
  exact subScanR_append m _ oneOrMore v hm

/-- A `runSubMulti` stage whose matcher rejects the `oneOrMore` prefix
preserves it. -/
theorem runSubMulti_oneOrMore (m : List Char → Option (List Char × Bool))
    (hm : ∀ t', m (oneOrMore ++ t') = none)
    (s : List Char) (hs : ∃ v, s = oneOrMore ++ v) :
    ∃ u, runSubMulti m s = oneOrMore ++ u := by
  obtain ⟨v, rfl⟩ := hs
  exact subMulti_append m oneOrMore _ v true hm (by decide)

/-- Every cleaning stage of `clean_objects` leaves the leading
`"One or more"` intact, so the cleaned text of a generated attempt is
never empty. -/
theorem clean_objects_pfx (t : List Char) :
    ∃ u, (Objects.clean_objects ⟨oneOrMore ++ t⟩).data = 'O' :: u := by
  have failsIn : ∀ (m : List Char → Option (List Char × List Char)),
      (∀ k t', k < oneOrMore.length → m (oneOrMore.drop k ++ t') = none) →
      (∀ k t', k < oneOrMore.length →
        m (oneOrMore.drop k ++ t') = none ∨
        ∃ pre suf, oneOrMore.drop k = pre ++ suf ∧ pre ≠ [] ∧
          m (oneOrMore.drop k ++ t') = some (pre, suf ++ t')) :=
    fun m hm k t' hk => Or.inl (hm k t' hk)
  obtain ⟨v₁, h₁⟩ := runSubMulti_oneOrMore
    (headerMatcher "OBJECTS OF THE INVENTION".data) (fun _ => rfl) _ ⟨t, rfl⟩
  obtain ⟨v₂, h₂⟩ := runSub_oneOrMore mdBoldMatcher
    (failsIn _ (fun k t' hk => by
      have hk' : k < 11 := hk
      interval_cases k <;> rfl)) _ ⟨v₁, h₁⟩
  obtain ⟨v₃, h₃⟩ := runSub_oneOrMore mdUnderlineMatcher
    (failsIn _ (fun k t' hk => by
      have hk' : k < 11 := hk
      interval_cases k <;> rfl)) _ ⟨v₂, h₂⟩
  obtain ⟨v₄, h₄⟩ := runSub_oneOrMore mdStarMatcher
    (failsIn _ (fun k t' hk => by
      have hk' : k < 11 := hk
      interval_cases k <;> rfl)) _ ⟨v₃, h₃⟩
  obtain ⟨v₅, h₅⟩ := runSubMulti_oneOrMore hashHeaderMatcher
    (fun _ => rfl) _ ⟨v₄, h₄⟩
  obtain ⟨v₆, h₆⟩ := runSubMulti_oneOrMore numberedListMatcher
    (fun _ => rfl) _ ⟨v₅, h₅⟩
  obtain ⟨v₇, h₇⟩ := runSubMulti_oneOrMore bulletMatcher
    (fun _ => rfl) _ ⟨v₆, h₆⟩
  obtain ⟨v₈, h₈⟩ := runSub_oneOrMore nlRunMatcher
    (failsIn _ (fun k t' hk => by
      have hk' : k < 11 := hk
      interval_cases k <;> rfl)) _ ⟨v₇, h₇⟩
  obtain ⟨v₉, h₉⟩ := runSub_oneOrMore spaceRunMatcher
    (fun k t' hk => by
      have hk' : k < 11 := hk
      interval_cases k
      case «3» => exact Or.inr ⟨[' '], "or more".data, rfl, by simp, rfl⟩
      case «6» => exact Or.inr ⟨[' '], "more".data, rfl, by simp, rfl⟩
      all_goals exact Or.inl rfl) _ ⟨v₈, h₈⟩
  obtain ⟨v₁₀, h₁₀⟩ := runSub_oneOrMore (eraseLitMatcher "===".data)
    (failsIn _ (fun k t' hk => by
      have hk' : k < 11 := hk
      interval_cases k <;> rfl)) _ ⟨v₉, h₉⟩
  have base : Objects.clean_objects ⟨oneOrMore ++ t⟩ =
      ⟨pyStrip (pyStrip (oneOrMore ++ v₁₀))⟩ := by
    simp only [Objects.clean_objects]
    rw [h₁₀]
  rw [base]
  have hO : pyIsSpace 'O' = false := rfl
  rw [show oneOrMore ++ v₁₀ = 'O' :: ("ne or more".data ++ v₁₀) from rfl,
    pyStrip_cons_of_not_space hO, pyStrip_cons_of_not_space hO]
  exact ⟨_, rfl⟩

/-- `validate_objects` sets `valid` to the emptiness test on its own
issue list. -/
theorem validate_objects_valid_eq (text : String) :
    (Objects.validate_objects text).valid =
      decide ((Objects.validate_objects text).issues.length = 0) := by
  simp only [Objects.validate_objects]

/-- The fields of an Objects attempt record. -/
theorem objects_mkResult_text (i : Nat) (raw : String) :
    (Objects.mkResult i raw).text =
      Objects.clean_objects ⟨"One or more".data ++ pyStrip raw.data⟩ := by
  simp only [Objects.mkResult]

theorem objects_mkResult_valid (i : Nat) (raw : String) :
    (Objects.mkResult i raw).valid =
      decide ((Objects.mkResult i raw).issues.length = 0) := by
  simp only [Objects.mkResult]
  exact validate_objects_valid_eq _

theorem objects_mkResult_score (i : Nat) (raw : String) :
    (Objects.mkResult i raw).score =
      20 * (Objects.mkResult i raw).issues.length +
        5 * (Objects.mkResult i raw).warnings.length := by
  simp only [Objects.mkResult]

/-- A generated Objects attempt always carries the priming prefix, so
its text is non-empty. -/
theorem objects_mkResult_text_ne (i : Nat) (raw : String) :
    (Objects.mkResult i raw).text ≠ "" := by
  obtain ⟨u, hu⟩ := clean_objects_pfx (pyStrip raw.data)
  rw [show oneOrMore = "One or more".data from rfl] at hu
  intro h
  rw [objects_mkResult_text] at h
  rw [h] at hu
  simp at hu

/-- A generated Objects attempt that does not pass the early-return test
has a strictly positive score. -/
theorem objects_mkResult_score_pos (i : Nat) (raw : String)
    (h : ((Objects.mkResult i raw).valid &&
      ((Objects.mkResult i raw).warnings.length = 0 : Bool)) = false) :
    0 < (Objects.mkResult i raw).score := by
  by_contra hle
  have hz : 20 * (Objects.mkResult i raw).issues.length +
      5 * (Objects.mkResult i raw).warnings.length = 0 := by
    rw [← objects_mkResult_score]
    exact Nat.eq_zero_of_not_pos hle
  have hi : (Objects.mkResult i raw).issues.length = 0 := by omega
  have hw : (Objects.mkResult i raw).warnings.length = 0 := by omega
  rw [objects_mkResult_valid, hi, hw] at h
  simp at h

/-- An early-returned Objects attempt has score 0. -/
theorem objects_mkResult_score_zero (i : Nat) (raw : String)
    (h : ((Objects.mkResult i raw).valid &&
      ((Objects.mkResult i raw).warnings.length = 0 : Bool)) = true) :
    (Objects.mkResult i raw).score = 0 := by
  have hv := (Bool.and_eq_true _ _).mp h
  have hi : (Objects.mkResult i raw).issues.length = 0 := by
    have := hv.1
    rw [objects_mkResult_valid] at this
    simpa using this
  have hw : (Objects.mkResult i raw).warnings.length = 0 := by
    simpa using hv.2
  rw [objects_mkResult_score, hi, hw]

/-- The first-minimum decomposition the Objects loop maintains between
`best_result` and the attempts generated so far. -/
def ObjBestInv (best : Option Objects.Result) (acc : List Objects.Result) : Prop :=
  (best = none ∧ acc = []) ∨
  (∃ b pre post, best = some b ∧ acc.reverse = pre ++ b :: post ∧
    (∀ a ∈ pre, b.score < a.score) ∧ (∀ a ∈ post, b.score ≤ a.score))

/-- `updateBest` preserves the first-minimum decomposition. -/
theorem objects_updateBest_inv (best : Option Objects.Result)
    (acc : List Objects.Result) (a : Objects.Result)
    (hinv : ObjBestInv best acc) :
    ObjBestInv (Objects.updateBest best a) (a :: acc) := by
  rcases hinv with ⟨hb, ha⟩ | ⟨b, pre, post, hb, hdec, hpre, hpost⟩
  · subst ha
    refine Or.inr ⟨a, [], [], ?_, by simp, by simp, by simp⟩
    simp [Objects.updateBest, hb]
  · subst hb
    by_cases hlt : a.score < b.score
    · refine Or.inr ⟨a, acc.reverse, [], ?_, by simp, ?_, by simp⟩
      · simp [Objects.updateBest, hlt]
      · intro x hx
        rw [hdec] at hx
        rcases List.mem_append.mp hx with hx | hx
        · exact lt_trans hlt (hpre x hx)
        · rcases List.mem_cons.mp hx with rfl | hx
          · exact hlt
          · exact lt_of_lt_of_le hlt (hpost x hx)
    · refine Or.inr ⟨b, pre, post ++ [a], ?_, ?_, hpre, ?_⟩
      · simp [Objects.updateBest, hlt]
      · simp [hdec]
      · intro x hx
        rcases List.mem_append.mp hx with hx | hx
        · exact hpost x hx
        · rcases List.mem_singleton.mp hx with rfl
          exact Nat.le_of_not_lt hlt

/-- The Objects retry loop returns either the fallback (with no
generated attempt) or the earliest lowest-scoring attempt; every
generated attempt has non-empty text. -/
theorem objects_loop_spec (engine : Nat → Except String String) (maxA : Nat) :
    ∀ (fuel i : Nat) (best : Option Objects.Result) (acc : List Objects.Result),
      ObjBestInv best acc →
      (∀ a ∈ acc, 0 < a.score) →
      (∀ a ∈ acc, a.text ≠ "") →
      (∀ a ∈ acc, ∃ j raw, a = Objects.mkResult j raw) →
      (let run := Objects.loop engine maxA i fuel best acc
       ((run.1 = Objects.fallbackResult maxA ∧ run.2 = []) ∨
        (∃ pre post, run.2 = pre ++ run.1 :: post ∧
          (∀ a ∈ pre, run.1.score < a.score) ∧
          (∀ a ∈ post, run.1.score ≤ a.score))) ∧
       (∀ a ∈ run.2, a.text ≠ "")) := by
  intro fuel
  induction fuel with
  | zero =>
    intro i best acc hinv hpos htext hmk
    simp only [Objects.loop]
    rcases hinv with ⟨hb, ha⟩ | ⟨b, pre, post, hb, hdec, hpre, hpost⟩
    · subst hb; subst ha
      exact ⟨Or.inl ⟨rfl, rfl⟩, by simp⟩
    · subst hb
      refine ⟨Or.inr ⟨pre, post, hdec, hpre, hpost⟩, ?_⟩
      intro a ha
      exact htext a (by simpa using List.mem_reverse.mp (by simpa using ha))
  | succ f ih =>
    intro i best acc hinv hpos htext hmk
    cases hengine : engine i with
    | error e =>
      simp only [Objects.loop, hengine]
      exact ih (i + 1) best acc hinv hpos htext hmk
    | ok raw =>
      simp only [Objects.loop, hengine]
      set a := Objects.mkResult i raw with ha
      by_cases hc : (a.valid && (a.warnings.length = 0 : Bool)) = true
      · simp only [hc, if_true]
        have hz : a.score = 0 := objects_mkResult_score_zero i raw hc
        constructor
        · refine Or.inr ⟨acc.reverse, [], by simp, ?_, by simp⟩
          intro x hx
          rw [hz]
          exact hpos x (List.mem_reverse.mp hx)
        · intro x hx
          simp only [List.reverse_cons] at hx
          rcases List.mem_append.mp hx with hx | hx
          · exact htext x (List.mem_reverse.mp hx)
          · rcases List.mem_singleton.mp hx with rfl
            exact objects_mkResult_text_ne i raw
      · have hc' : (a.valid && (a.warnings.length = 0 : Bool)) = false :=
          Bool.not_eq_true _ ▸ (by simpa using hc)
        simp only [hc', Bool.false_eq_true, if_false]
        refine ih (i + 1) (Objects.updateBest best a) (a :: acc)
          (objects_updateBest_inv best acc a hinv) ?_ ?_ ?_
        · intro x hx
          rcases List.mem_cons.mp hx with rfl | hx
          · exact objects_mkResult_score_pos i raw hc'
          · exact hpos x hx
        · intro x hx
          rcases List.mem_cons.mp hx with rfl | hx
          · exact objects_mkResult_text_ne i raw
          · exact htext x hx
        · intro x hx
          rcases List.mem_cons.mp hx with rfl | hx
          · exact ⟨i, raw, rfl⟩
          · exact hmk x hx

/-- `updateBest` never yields an empty-text best attempt when fed
non-empty ones. -/
theorem objects_updateBest_text (best : Option Objects.Result) (i : Nat)
    (raw : String) (hbest : ∀ b, best = some b → b.text ≠ "") :
    ∀ b, Objects.updateBest best (Objects.mkResult i raw) = some b →
      b.text ≠ "" := by
  intro b hb
  cases best with
  | none =>
    simp only [Objects.updateBest] at hb
    have h' : Objects.mkResult i raw = b := Option.some.inj hb
    subst h'
    exact objects_mkResult_text_ne i raw
  | some b₀ =>
    simp only [Objects.updateBest] at hb
    split at hb
    · have h' : Objects.mkResult i raw = b := Option.some.inj hb
      subst h'
      exact objects_mkResult_text_ne i raw
    · have h' : b₀ = b := Option.some.inj hb
      subst h'
      exact hbest _ rfl

/-- The Objects loop ends in the fallback iff no attempt was generated:
exceptions are absorbed and only a run whose every engine call raised
falls through to the `"Generation failed"` result. -/
theorem objects_loop_fallback_iff (engine : Nat → Except String String)
    (maxA : Nat) :
    ∀ (fuel i : Nat) (best : Option Objects.Result) (acc : List Objects.Result),
      (∀ b, best = some b → b.text ≠ "") →
      ((Objects.loop engine maxA i fuel best acc).1 =
          Objects.fallbackResult maxA ↔
        (best = none ∧ ∀ j, j < fuel → ∃ e, engine (i + j) = .error e)) := by
  intro fuel
  induction fuel with
  | zero =>
    intro i best acc hbest
    simp only [Objects.loop]
    cases best with
    | none => simp
    | some b =>
      have hb := hbest b rfl
      constructor
      · intro h
        exact absurd (congrArg Objects.Result.text h) (by
          simpa [Objects.fallbackResult] using hb)
      · intro ⟨h, _⟩; cases h
  | succ f ih =>
    intro i best acc hbest
    cases hengine : engine i with
    | error e =>
      simp only [Objects.loop, hengine]
      rw [ih (i + 1) best acc hbest]
      constructor
      · rintro ⟨hb, hall⟩
        refine ⟨hb, fun j hj => ?_⟩
        match j with
        | 0 => exact ⟨e, by simpa using hengine⟩
        | j + 1 =>
          have := hall j (by omega)
          simpa [Nat.add_comm, Nat.add_assoc, Nat.add_left_comm] using this
      · rintro ⟨hb, hall⟩
        refine ⟨hb, fun j hj => ?_⟩
        have := hall (j + 1) (by omega)
        simpa [Nat.add_comm, Nat.add_assoc, Nat.add_left_comm] using this
    | ok raw =>
      simp only [Objects.loop, hengine]
      set a := Objects.mkResult i raw with ha
      by_cases hc : (a.valid && (a.warnings.length = 0 : Bool)) = true
      · simp only [hc, if_true]
        constructor
        · intro h
          exact absurd (congrArg Objects.Result.text h) (by
            simpa [Objects.fallbackResult] using objects_mkResult_text_ne i raw)
        · rintro ⟨_, hall⟩
          obtain ⟨e, he⟩ := hall 0 (by omega)
          simp [hengine] at he
      · have hc' : (a.valid && (a.warnings.length = 0 : Bool)) = false := by
          simpa using hc
        simp only [hc', Bool.false_eq_true, if_false]
        rw [ih (i + 1) (Objects.updateBest best a) (a :: acc)
          (ha ▸ objects_updateBest_text best i raw hbest)]
        constructor
        · rintro ⟨hb, _⟩
          cases best with
          | none => simp [Objects.updateBest] at hb
          | some b₀ => simp only [Objects.updateBest] at hb; split at hb <;> cases hb
        · rintro ⟨_, hall⟩
          obtain ⟨e, he⟩ := hall 0 (by omega)
          simp [hengine] at he

/-- `generate_objects_of_invention` returns the fallback iff every
engine call raised. -/
theorem objects_fallback_iff (engine : Nat → Except String String) (n : Nat) :
    (Objects.generate_objects_of_invention engine n).1 =
        Objects.fallbackResult n ↔
      ∀ j, j < n → ∃ e, engine j = .error e := by
  have := objects_loop_fallback_iff engine n n 0 none [] (by simp)
  simp only [Objects.generate_objects_of_invention]
  rw [this]
  simp

/-- The Drawings loop returns the `LLM inference failed` empty result as
soon as an engine call raises: prior ok-but-invalid attempts are
discarded, remaining attempts never run. -/
theorem drawings_loop_abort (engine : Nat → Except String String) (maxA : Nat)
    (e : String) :
    ∀ (d fuel i : Nat) (best : Option Drawings.Result)
      (acc : List Drawings.Result),
      d < fuel →
      (∀ j, j < d → ∃ t, engine (i + j) = .ok t ∧
        (Drawings.mkResult (i + j) t).valid = false) →
      engine (i + d) = .error e →
      (Drawings.loop engine maxA i fuel best acc).1 =
        Drawings.exceptionResult e (i + d + 1) := by
  intro d
  induction d with
  | zero =>
    intro fuel i best acc hd _ herr
    match fuel, hd with
    | f + 1, _ =>
      simp only [Nat.add_zero] at herr
      simp only [Drawings.loop, herr]
  | succ d ih =>
    intro fuel i best acc hd hok herr
    match fuel, hd with
    | f + 1, _ =>
      obtain ⟨t, ht, hinv⟩ := hok 0 (by omega)
      simp only [Nat.add_zero] at ht hinv
      simp only [Drawings.loop, ht]
      simp only [hinv, Bool.false_eq_true, if_false]
      have := ih f (i + 1) (Drawings.updateBest best (Drawings.mkResult i t))
        ((Drawings.mkResult i t) :: acc) (by omega)
        (fun j hj => by
          obtain ⟨t', ht', hv⟩ := hok (j + 1) (by omega)
          exact ⟨t', by simpa [Nat.add_comm, Nat.add_assoc, Nat.add_left_comm] using ht',
            by simpa [Nat.add_comm, Nat.add_assoc, Nat.add_left_comm] using hv⟩)
        (by simpa [Nat.add_comm, Nat.add_assoc, Nat.add_left_comm] using herr)
      rw [this]
      congr 1
      omega

/-- The first-maximum decomposition the Title loop maintains. -/
def TitleBestInv (bs : Int) (best : Option Title.Attempt)
    (acc : List Title.Attempt) : Prop :=
  (best = none ∧ bs = -1 ∧ ∀ a ∈ acc, a.score ≤ -1) ∨
  (∃ b pre post, best = some b ∧ bs = b.score ∧ (-1 : Int) < b.score ∧
    acc.reverse = pre ++ b :: post ∧
    (∀ a ∈ pre, a.score < b.score) ∧ (∀ a ∈ post, a.score ≤ b.score))

/-- One Title-loop update preserves the first-maximum decomposition. -/
theorem title_update_inv (bs : Int) (best : Option Title.Attempt)
    (acc : List Title.Attempt) (a : Title.Attempt)
    (hinv : TitleBestInv bs best acc) :
    TitleBestInv (if a.score > bs then a.score else bs)
      (if a.score > bs then some a else best) (a :: acc) := by
  rcases hinv with ⟨hb, hbs, hall⟩ | ⟨b, pre, post, hb, hbs, hpos, hdec, hpre, hpost⟩
  · subst hb; subst hbs
    by_cases hgt : a.score > -1
    · refine Or.inr ⟨a, acc.reverse, [], ?_, ?_, hgt, by simp, ?_, by simp⟩
      · simp [hgt]
      · simp [hgt]
      · intro x hx
        exact lt_of_le_of_lt (hall x (List.mem_reverse.mp hx)) hgt
    · refine Or.inl ⟨?_, ?_, ?_⟩
      · simp [hgt]
      · simp [hgt]
      · intro x hx
        rcases List.mem_cons.mp hx with rfl | hx
        · exact le_of_not_lt hgt
        · exact hall x hx
  · subst hb; subst hbs
    by_cases hgt : a.score > b.score
    · refine Or.inr ⟨a, acc.reverse, [], ?_, ?_, lt_trans hpos hgt, by simp, ?_, by simp⟩
      · simp [hgt]
      · simp [hgt]
      · intro x hx
        rw [hdec] at hx
        rcases List.mem_append.mp hx with hx | hx
        · exact lt_trans (hpre x hx) hgt
        · rcases List.mem_cons.mp hx with rfl | hx
          · exact hgt
          · exact lt_of_le_of_lt (hpost x hx) hgt
    · refine Or.inr ⟨b, pre, post ++ [a], ?_, ?_, hpos, ?_, hpre, ?_⟩
      · simp [hgt]
      · simp [hgt]
      · simp [hdec]
      · intro x hx
        rcases List.mem_append.mp hx with hx | hx
        · exact hpost x hx
        · rcases List.mem_singleton.mp hx with rfl
          exact le_of_not_lt hgt

/-- Within a Title run that returns a best attempt, that attempt is the
earliest highest-scoring one: strictly above every earlier attempt and
at least every later attempt. -/
theorem title_loop_spec (engine : Nat → Except String String) :
    ∀ (fuel i : Nat) (bs : Int) (best : Option Title.Attempt)
      (acc : List Title.Attempt) (b : Title.Attempt)
      (atts : List Title.Attempt),
      TitleBestInv bs best acc →
      Title.loop engine i fuel bs best acc = .ok (some b, atts) →
      ∃ pre post, atts = pre ++ b :: post ∧
        (∀ a ∈ pre, a.score < b.score) ∧ (∀ a ∈ post, a.score ≤ b.score) := by
  intro fuel
  induction fuel with
  | zero =>
    intro i bs best acc b atts hinv hrun
    simp only [Title.loop] at hrun
    cases hrun
    rcases hinv with ⟨hb, _, _⟩ | ⟨b', pre, post, hb, _, _, hdec, hpre, hpost⟩
    · cases hb
    · cases hb
      exact ⟨pre, post, hdec, hpre, hpost⟩
  | succ f ih =>
    intro i bs best acc b atts hinv hrun
    cases hengine : engine i with
    | error e =>
      simp only [Title.loop, hengine] at hrun
      exact Except.noConfusion hrun
    | ok raw =>
      simp only [Title.loop, hengine] at hrun
      set a := Title.mkAttempt i raw with ha
      have hinv' := title_update_inv bs best acc a hinv
      by_cases hc : (a.validation.valid &&
          (a.validation.warnings.length = 0 : Bool)) = true
      · rw [if_pos hc] at hrun
        rcases hinv' with ⟨hb, _, _⟩ | ⟨b', pre, post, hb, _, _, hdec, hpre, hpost⟩
        · rw [hb] at hrun
          simp at hrun
        · rw [hb] at hrun
          have h1 : b' = b ∧ (a :: acc).reverse = atts := by
            have := hrun
            simp only [Except.ok.injEq, Prod.mk.injEq, Option.some.injEq] at this
            exact this
          obtain ⟨rfl, hatts⟩ := h1
          exact ⟨pre, post, by rw [← hatts, hdec], hpre, hpost⟩
      · rw [if_neg (by simpa using hc)] at hrun
        exact ih (i + 1) _ _ _ b atts hinv' hrun

/-! ## List and string helpers for the claim theorems -/

/-- String append acts as list append on the underlying data. -/
theorem string_append_data (a b : String) : (a ++ b).data = a.data ++ b.data := rfl

/-- A `filterMap` whose function maps every member to `some` of itself is
the identity. -/
theorem filterMap_id_of {α : Type} (f : α → Option α) :
    ∀ l : List α, (∀ a ∈ l, f a = some a) → l.filterMap f = l
  | [], _ => rfl
  | a :: l, h => by
    rw [List.filterMap_cons, h a (List.mem_cons_self a l),
      filterMap_id_of f l (fun b hb => h b (List.mem_cons_of_mem a hb))]

/-- The newline splitter never returns an empty list of lines. -/
theorem splitOnNl_splitAux_ne_nil : ∀ (l acc : List Char), splitOnNl.splitAux l acc ≠ []
  | [], acc => by simp [splitOnNl.splitAux]
  | c :: cs, acc => by
    simp only [splitOnNl.splitAux]
    split
    · exact List.cons_ne_nil _ _
    · exact splitOnNl_splitAux_ne_nil cs (c :: acc)

/-- Joining the `\n`-split lines with `\n` restores the accumulator and
the remaining input. -/
theorem joinSep_splitAux : ∀ (l acc : List Char),
    joinSep ['\n'] (splitOnNl.splitAux l acc) = acc.reverse ++ l
  | [], acc => by simp [splitOnNl.splitAux, joinSep]
  | c :: cs, acc => by
    simp only [splitOnNl.splitAux]
    split
    · next hc =>
      cases hsp : splitOnNl.splitAux cs [] with
      | nil => exact absurd hsp (splitOnNl_splitAux_ne_nil cs [])
      | cons y ys =>
        have hrec := joinSep_splitAux cs []
        rw [hsp] at hrec
        rw [show joinSep ['\n'] (acc.reverse :: y :: ys) =
          acc.reverse ++ ['\n'] ++ joinSep ['\n'] (y :: ys) from rfl, hrec]
        simp [hc]
    · next hc =>
      rw [joinSep_splitAux cs (c :: acc)]
      simp

/-- Joining the `\n`-split with `\n` is the identity. -/
theorem joinSep_splitOnNl (l : List Char) : joinSep ['\n'] (splitOnNl l) = l := by
  simpa [splitOnNl] using joinSep_splitAux l []

/-- `dropLit` succeeds on its own literal, returning the rest. -/
theorem dropLit_append_self : ∀ (pat rest : List Char), dropLit pat (pat ++ rest) = some rest
  | [], _ => rfl
  | p :: ps, rest => by simp [dropLit, dropLit_append_self ps rest]

/-- A needle standing as a contiguous segment is found by `infixOfL`. -/
theorem infixOfL_append_self : ∀ (pre pat post : List Char),
    infixOfL pat (pre ++ pat ++ post) = true
  | [], pat, post => by
    cases pat with
    | nil =>
      cases post with
      | nil => rfl
      | cons c cs => simp [infixOfL, dropLit]
    | cons p ps =>
      simp only [List.nil_append, infixOfL, List.cons_append, Bool.or_eq_true]
      refine Or.inl ?_
      show (dropLit (p :: ps) ((p :: ps) ++ post)).isSome = true
      rw [dropLit_append_self]
      rfl
  | c :: pre, pat, post => by
    simp only [infixOfL, List.cons_append, Bool.or_eq_true]
    exact Or.inr (infixOfL_append_self pre pat post)

/-- Substring test on an explicit middle occurrence. -/
theorem containsSub_append_middle (a b c : String) : containsSub (a ++ b ++ c) b = true := by
  simp only [containsSub, string_append_data]
  exact infixOfL_append_self a.data b.data c.data

/-- `mapM` over `Except` succeeds when every element does. -/
theorem exceptMapM_ok {ε α β : Type} (f : α → Except ε β) :
    ∀ l : List α, (∀ a ∈ l, ∃ b, f a = .ok b) → ∃ bs, l.mapM f = .ok bs
  | [], _ => ⟨[], by simp; rfl⟩
  | a :: l, h => by
    obtain ⟨b, hb⟩ := h a (List.mem_cons_self a l)
    obtain ⟨bs, hbs⟩ := exceptMapM_ok f l (fun x hx => h x (List.mem_cons_of_mem a hx))
    exact ⟨b :: bs, by rw [List.mapM_cons, hb, hbs]; rfl⟩

/-- With a non-empty component list and a raising engine,
`generate_dependent_claim` returns the deterministic fallback sentence. -/
theorem generate_dependent_claim_error (n : Nat) (components : List String)
    (dev e : String) (h : components ≠ []) :
    ∃ comp : String, Claims.generate_dependent_claim n components dev (.error e) =
      .ok ("The " ++ dev ++ " as claimed in claim " ++ natStr (Claims.dependsOn n) ++
        ", wherein the " ++ comp ++ " provides additional functionality.") := by
  have hlen : ¬ components.length = 0 := by simpa [List.length_eq_zero] using h
  refine ⟨⟨pyStrip (components.get ⟨(n - 2) % components.length,
    Nat.mod_lt _ (Nat.pos_of_ne_zero hlen)⟩).data⟩, ?_⟩
  simp only [Claims.generate_dependent_claim]
  rw [dif_neg hlen]

/-- Each raising-engine dependent claim mentions its parent claim. -/
theorem generate_dependent_claim_error_mentions (n : Nat) (components : List String)
    (dev e : String) (h : components ≠ []) :
    ∃ t, Claims.generate_dependent_claim n components dev (.error e) = .ok t ∧
      containsSub t ("as claimed in claim " ++ natStr (Claims.dependsOn n)) = true := by
  obtain ⟨comp, hc⟩ := generate_dependent_claim_error n components dev e h
  refine ⟨_, hc, ?_⟩
  simp only [containsSub, string_append_data]
  have key : "The ".data ++ dev.data ++ " as claimed in claim ".data ++
      (natStr (Claims.dependsOn n)).data ++ ", wherein the ".data ++ comp.data ++
      " provides additional functionality.".data =
      ("The ".data ++ dev.data ++ [' ']) ++
        ("as claimed in claim ".data ++ (natStr (Claims.dependsOn n)).data) ++
        (", wherein the ".data ++ comp.data ++
          " provides additional functionality.".data) := by
    rw [show " as claimed in claim ".data = [' '] ++ "as claimed in claim ".data from rfl]
    simp [List.append_assoc]
  rw [key]
  exact infixOfL_append_self _ _ _

/-- `emitLine` only appends to the output. -/
theorem emitLine_out_extends (st : Claims.FmtState) (line : List Char) :
    ∃ t, (Claims.emitLine st line).out = st.out ++ t := by
  simp only [Claims.emitLine]
  split
  · exact ⟨line ++ Claims.padLeft5 st.counter ++ ['\n'], by simp⟩
  · exact ⟨line ++ ['\n'], by simp⟩

/-- A fold of output-extending steps only appends to the output. -/
theorem foldl_out_extends {α : Type} (f : Claims.FmtState → α → Claims.FmtState)
    (hf : ∀ st a, ∃ t, (f st a).out = st.out ++ t) :
    ∀ (l : List α) (st : Claims.FmtState), ∃ t, (l.foldl f st).out = st.out ++ t
  | [], st => ⟨[], by simp⟩
  | a :: l, st => by
    obtain ⟨t₁, h₁⟩ := hf st a
    obtain ⟨t₂, h₂⟩ := foldl_out_extends f hf l (f st a)
    exact ⟨t₁ ++ t₂, by rw [List.foldl_cons, h₂, h₁, List.append_assoc]⟩

/-- An output known to extend a prefix keeps it as a list prefix. -/
theorem prefix_of_ext {P : List Char} {st : Claims.FmtState}
    (hp : ∃ t, st.out = P ++ t) : P <+: st.out := by
  obtain ⟨t, ht⟩ := hp
  exact ⟨t, ht.symm⟩

/-- `emitRaw` preserves any prefix of the output. -/
theorem ext_emitRaw {P : List Char} {st : Claims.FmtState}
    (hp : ∃ t, st.out = P ++ t) (x : List Char) :
    ∃ t, (Claims.emitRaw st x).out = P ++ t := by
  obtain ⟨t, ht⟩ := hp
  exact ⟨t ++ x, by simp [Claims.emitRaw, ht, List.append_assoc]⟩

/-- `emitLine` preserves any prefix of the output. -/
theorem ext_emitLine {P : List Char} {st : Claims.FmtState}
    (hp : ∃ t, st.out = P ++ t) (x : List Char) :
    ∃ t, (Claims.emitLine st x).out = P ++ t := by
  obtain ⟨t₁, h₁⟩ := hp
  obtain ⟨t₂, h₂⟩ := emitLine_out_extends st x
  exact ⟨t₁ ++ t₂, by rw [h₂, h₁, List.append_assoc]⟩

/-- A fold of output-extending steps preserves any prefix of the output. -/
theorem ext_foldl {α : Type} {P : List Char} (f : Claims.FmtState → α → Claims.FmtState)
    (hf : ∀ st a, ∃ t, (f st a).out = st.out ++ t) (l : List α) {st : Claims.FmtState}
    (hp : ∃ t, st.out = P ++ t) : ∃ t, (l.foldl f st).out = P ++ t := by
  obtain ⟨t₁, h₁⟩ := hp
  obtain ⟨t₂, h₂⟩ := foldl_out_extends f hf l st
  exact ⟨t₁ ++ t₂, by rw [h₂, h₁, List.append_assoc]⟩

/-- The formatted claims document starts with the `Claims` / `We Claim`
headers followed by claim number 1. -/
theorem format_claims_prefix (ic : Claims.IndependentClaim) (deps : List String)
    (method : String) (day : Nat) (month : String) (year : Nat) :
    "Claims\n\nWe Claim\n\n1. ".data <+:
      (Claims.format_claims_patent_office_style ic deps method day month year).data := by
  have hbase : ∃ t, (Claims.emitLine { out := "Claims\n\nWe Claim\n\n".data, counter := 1 }
      ("1. ".data ++ ic.preamble.data)).out = "Claims\n\nWe Claim\n\n1. ".data ++ t := by
    refine ⟨ic.preamble.data ++ ['\n'], ?_⟩
    simp only [Claims.emitLine]
    rw [if_neg (by decide)]
    simp [List.append_assoc]
  simp only [Claims.format_claims_patent_office_style]
  refine prefix_of_ext (ext_emitRaw (ext_emitRaw (ext_foldl _
    (fun s l => emitLine_out_extends s l) _
    (ext_foldl _ (fun st p => ?_) deps.enum
      (ext_emitRaw (ext_foldl _ (fun st p => ?_) ic.elements.enum hbase) _))) _) _)
  · obtain ⟨t, ht⟩ := foldl_out_extends _ (fun s l => emitLine_out_extends s l)
      (pyWrap 65 "   " (natStr (p.1 + 2) ++ ". " ++ p.2)) st
    exact ⟨t ++ ['\n'], by simp [Claims.emitRaw, ht, List.append_assoc]⟩
  · exact foldl_out_extends _ (fun s l => emitLine_out_extends s ("   ".data ++ l))
      (pyWrap 65 "" (Claims.prepElement (p.1 = ic.elements.length - 1) p.2)) st

/-- The formatted claims document ends with the date footer. -/
theorem format_claims_suffix (ic : Claims.IndependentClaim) (deps : List String)
    (method : String) (day : Nat) (month : String) (year : Nat) :
    ("Dated this ".data ++ (natStr day).data ++ " day of ".data ++ month.data ++
      [' '] ++ (natStr year).data ++ ['\n']) <:+
      (Claims.format_claims_patent_office_style ic deps method day month year).data := by
  simp only [Claims.format_claims_patent_office_style]
  exact List.suffix_append _ _

/-- The sequential-numbering message differs from every `Line `-prefixed
per-line message. -/
theorem figSeq_ne_line (x y : String) :
    "Figures must be numbered sequentially" ≠ "Line " ++ x ++ y := by
  intro h
  have hd := congrArg (fun s => s.data.head?) h
  simp [string_append_data] at hd

/-- The sequential-numbering message differs from every `Figure `-prefixed
per-line message. -/
theorem figSeq_ne_figureSp (x y : String) :
    "Figures must be numbered sequentially" ≠ "Figure " ++ x ++ y := by
  intro h
  have hd := congrArg (fun s => s.data[6]?) h
  simp only [string_append_data, List.append_assoc] at hd
  rw [List.getElem?_append_left (by decide)] at hd
  exact absurd hd (by decide)


/-! ## The claims -/

/-- C1 counterexample: run to exhaustion (two attempts, no early stop),
`generate_title_from_abstract` returns the attempt with score `115`
although an attempt scored `−30`: the Title loop keeps the HIGHEST
score, not the lowest, so the returned score is not `≤` every
attempt's score. -/
theorem C1_counterexample :
    ((Title.generate_title_from_abstract Examples.titleEng 2).map
        (fun r => (r.1.map (fun a => a.score), r.2.map (fun a => a.score))) =
      .ok (some 115, [-30, 115])) ∧ ¬ ((115 : Int) ≤ -30) :=
  ⟨by rfl, by decide⟩

/-- C1 amended: the Title retry loop returns the earliest
highest-scoring attempt (strictly above every earlier one, at least
every later one), while the Objects retry loop returns the fallback or
the earliest lowest-scoring attempt. -/
theorem C1_amended (engineT engineO : Nat → Except String String) (nT nO : Nat)
    (b : Title.Attempt) (atts : List Title.Attempt)
    (hrun : Title.generate_title_from_abstract engineT nT = .ok (some b, atts)) :
    (∃ pre post, atts = pre ++ b :: post ∧
        (∀ a ∈ pre, a.score < b.score) ∧ (∀ a ∈ post, a.score ≤ b.score)) ∧
      (let run := Objects.generate_objects_of_invention engineO nO
       (run.1 = Objects.fallbackResult nO ∧ run.2 = []) ∨
         ∃ pre post, run.2 = pre ++ run.1 :: post ∧
           (∀ a ∈ pre, run.1.score < a.score) ∧
           (∀ a ∈ post, run.1.score ≤ a.score)) := by
  constructor
  · exact title_loop_spec engineT nT 0 (-1) none [] b atts
      (Or.inl ⟨rfl, rfl, by simp⟩) hrun
  · exact (objects_loop_spec engineO nO nO 0 none []
      (Or.inl ⟨rfl, rfl⟩) (by simp) (by simp) (by simp)).1

/-- C1 amended at a concrete input: a one-attempt Title run and a
one-attempt all-raising Objects run. -/
theorem C1_amended_witness :
    (∃ pre post,
        [Title.mkAttempt 0 "Sensor Array Irrigation Predictive Control Flow Harvest Water"] =
          pre ++ Title.mkAttempt 0
            "Sensor Array Irrigation Predictive Control Flow Harvest Water" :: post ∧
        (∀ a ∈ pre, a.score < (Title.mkAttempt 0
          "Sensor Array Irrigation Predictive Control Flow Harvest Water").score) ∧
        (∀ a ∈ post, a.score ≤ (Title.mkAttempt 0
          "Sensor Array Irrigation Predictive Control Flow Harvest Water").score)) ∧
      (let run := Objects.generate_objects_of_invention Examples.allFailEng 1
       (run.1 = Objects.fallbackResult 1 ∧ run.2 = []) ∨
         ∃ pre post, run.2 = pre ++ run.1 :: post ∧
           (∀ a ∈ pre, run.1.score < a.score) ∧
           (∀ a ∈ post, run.1.score ≤ a.score)) :=
  C1_amended Examples.titleOneShotEng Examples.allFailEng 1 1
    (Title.mkAttempt 0 "Sensor Array Irrigation Predictive Control Flow Harvest Water")
    [Title.mkAttempt 0 "Sensor Array Irrigation Predictive Control Flow Harvest Water"]
    (by rfl)

/-- C2 counterexample: the Drawings generator's first attempt raises and
the run immediately returns the empty-text failure result, although the
remaining attempt would have produced a valid description — the
exception is not absorbed and retrying does not continue. -/
theorem C2_counterexample :
    (Drawings.generate_drawing_descriptions Examples.drawEngFailFirst 2).1 =
        Drawings.exceptionResult "device out of memory" 1 ∧
      ∃ t, Examples.drawEngFailFirst 1 = .ok t ∧
        (Drawings.mkResult 1 t).valid = true :=
  ⟨by decide,
    "FIG. 1 is a block diagram illustrating an overview of the wireless communication system according to embodiments of the invention.\nFIG. 2 is a schematic diagram showing the internal components of the transmitter module in detail.",
    rfl, by decide⟩

/-- C2 amended: the Objects loop absorbs engine exceptions and returns
the flagged empty-text fallback exactly when every attempt raised,
whereas the Drawings loop aborts with the `LLM inference failed` result
at the FIRST raising attempt. -/
theorem C2_amended (engineO engineD : Nat → Except String String) (nO nD d : Nat)
    (e : String) (hd : d < nD)
    (hok : ∀ j, j < d → ∃ t, engineD j = .ok t ∧ (Drawings.mkResult j t).valid = false)
    (herr : engineD d = .error e) :
    ((Objects.generate_objects_of_invention engineO nO).1 =
        Objects.fallbackResult nO ↔ ∀ j, j < nO → ∃ er, engineO j = .error er) ∧
      (Drawings.generate_drawing_descriptions engineD nD).1 =
        Drawings.exceptionResult e (d + 1) := by
  refine ⟨objects_fallback_iff engineO nO, ?_⟩
  have := drawings_loop_abort engineD nD e d nD 0 none [] hd
    (fun j hj => by simpa using hok j hj) (by simpa using herr)
  simpa using this

/-- C2 amended at a concrete input: an all-raising one-attempt Objects
engine and a Drawings engine raising on its first attempt. -/
theorem C2_amended_witness :
    ((Objects.generate_objects_of_invention Examples.allFailEng 1).1 =
        Objects.fallbackResult 1 ↔
      ∀ j, j < 1 → ∃ er, Examples.allFailEng j = .error er) ∧
      (Drawings.generate_drawing_descriptions Examples.drawEngFailFirst 2).1 =
        Drawings.exceptionResult "device out of memory" 1 :=
  C2_amended Examples.allFailEng Examples.drawEngFailFirst 1 2 0 "device out of memory"
    (by decide) (fun j hj => absurd hj (Nat.not_lt_zero j)) rfl

/-- C3 counterexample: the Drawings run's only generated attempt has
non-empty (invalid) text, yet the returned result's text is empty — the
attempt-2 exception discards it. -/
theorem C3_counterexample :
    ∃ a, (Drawings.generate_drawing_descriptions Examples.drawEngFailSecond 2).2 = [a] ∧
      a.text ≠ "" ∧
      (Drawings.generate_drawing_descriptions Examples.drawEngFailSecond 2).1.text = "" :=
  ⟨Drawings.mkResult 0 "FIG. 1 is a diagram", by decide, by decide, by decide⟩

/-- C3 amended: for the Objects generator, if any attempt was generated
the returned result has non-empty text and is the earliest
lowest-scoring attempt (returned even when invalid). -/
theorem C3_amended (engine : Nat → Except String String) (n : Nat)
    (h : (Objects.generate_objects_of_invention engine n).2 ≠ []) :
    (Objects.generate_objects_of_invention engine n).1.text ≠ "" ∧
      ∃ pre post, (Objects.generate_objects_of_invention engine n).2 =
          pre ++ (Objects.generate_objects_of_invention engine n).1 :: post ∧
        (∀ a ∈ pre, (Objects.generate_objects_of_invention engine n).1.score < a.score) ∧
        (∀ a ∈ post, (Objects.generate_objects_of_invention engine n).1.score ≤ a.score) := by
  have hs := objects_loop_spec engine n n 0 none []
    (Or.inl ⟨rfl, rfl⟩) (by simp) (by simp) (by simp)
  obtain ⟨hdec, htext⟩ := hs
  rcases hdec with ⟨hfb, hnil⟩ | ⟨pre, post, hdec, hpre, hpost⟩
  · exact absurd hnil h
  · refine ⟨htext _ ?_, pre, post, hdec, hpre, hpost⟩
    rw [hdec]
    exact List.mem_append.mpr (Or.inr (List.mem_cons_self _ _))

/-- C3 amended at a concrete input: a three-attempt Objects run whose
first attempt raises and whose others return invalid text. -/
theorem C3_amended_witness :
    (Objects.generate_objects_of_invention Examples.objEng 3).1.text ≠ "" ∧
      ∃ pre post, (Objects.generate_objects_of_invention Examples.objEng 3).2 =
          pre ++ (Objects.generate_objects_of_invention Examples.objEng 3).1 :: post ∧
        (∀ a ∈ pre,
          (Objects.generate_objects_of_invention Examples.objEng 3).1.score < a.score) ∧
        (∀ a ∈ post,
          (Objects.generate_objects_of_invention Examples.objEng 3).1.score ≤ a.score) :=
  C3_amended Examples.objEng 3 (by decide)

/-- C4: the prompt `generate_independent_claim_structured` sends to the
engine depends only on the abstract — the `prior_art` parameter (and so
every retrieved excerpt) never reaches it; concretely, none of the three
stub excerpts occurs in the prompt built for them. -/
theorem C4_prompt_ignores_retrieval :
    (∀ (abstract p q : String) (c d : List String),
        Claims.independentClaimPrompt abstract c p =
          Claims.independentClaimPrompt abstract d q) ∧
      containsSub (Claims.independentClaimPrompt "An irrigation system"
          (Claims.extract_components_from_abstract "An irrigation system")
          (Claims.buildPriorAbstracts Examples.priorArtStub))
        "prior~art~excerpt~one" = false ∧
      containsSub (Claims.independentClaimPrompt "An irrigation system"
          (Claims.extract_components_from_abstract "An irrigation system")
          (Claims.buildPriorAbstracts Examples.priorArtStub))
        "prior~art~excerpt~two" = false ∧
      containsSub (Claims.independentClaimPrompt "An irrigation system"
          (Claims.extract_components_from_abstract "An irrigation system")
          (Claims.buildPriorAbstracts Examples.priorArtStub))
        "prior~art~excerpt~three" = false :=
  ⟨fun _ _ _ _ _ => rfl, by decide, by decide, by decide⟩

/-- C5 counterexample: neither `clean_title` nor
`clean_brief_description` is idempotent — a second pass strips a further
label layer, and re-matches a header line completed with a period. -/
theorem C5_counterexample :
    Title.clean_title (Title.clean_title "'Title: Widget System'") ≠
        Title.clean_title "'Title: Widget System'" ∧
      Brief.clean_brief_description (Brief.clean_brief_description
          "**BRIEF DESCRIPTION OF THE DRAWINGS**\nFigure 1: illustrates a.") ≠
        Brief.clean_brief_description
          "**BRIEF DESCRIPTION OF THE DRAWINGS**\nFigure 1: illustrates a." :=
  ⟨by decide, by decide⟩

/-- C5 amended: cleaning is the identity on every text each of its
stages fixes, so a cleaning pass is a no-op — and cleaning idempotent —
exactly on stage-fixed texts. -/
theorem C5_amended (u v : String)
    (h1 : Title.stripTitleLabel u.data = u.data)
    (h2 : pyStripChars Title.quoteChars u.data = u.data)
    (h3 : pyRStripChars ['.'] u.data = u.data)
    (h4 : Title.removeForbiddenWords u.data = u.data)
    (h5 : joinSep [' '] (pySplit u.data) = u.data)
    (g1 : runSubMulti (headerMatcher "BRIEF DESCRIPTION OF THE DRAWINGS".data) v.data
      = v.data)
    (g2 : runSub mdBoldMatcher v.data = v.data)
    (g3 : runSub mdUnderlineMatcher v.data = v.data)
    (g4 : runSub mdStarMatcher v.data = v.data)
    (g5 : ∀ l ∈ splitOnNl v.data, pyStrip l = l ∧ l ≠ [] ∧
      Brief.figAbbrevSub (Brief.figureWordSub l) = l ∧ l.getLast? = some '.') :
    Title.clean_title u = u ∧ Brief.clean_brief_description v = v := by
  constructor
  · simp only [Title.clean_title]
    rw [h1, h2, h3, h4, h5]
  · simp only [Brief.clean_brief_description]
    rw [g1, g2, g3, g4]
    have hstep : (splitOnNl v.data).filterMap (fun line =>
        let line := pyStrip line
        if line = [] then none
        else
          let line := Brief.figAbbrevSub (Brief.figureWordSub line)
          let line := if line.getLast? = some '.' then line else line ++ ['.']
          some line) = splitOnNl v.data := by
      apply filterMap_id_of
      intro l hl
      obtain ⟨hs, hne, hfig, hlast⟩ := g5 l hl
      simp only [hs, hfig]
      rw [if_neg hne, if_pos hlast]
    rw [hstep, joinSep_splitOnNl]

/-- C5 amended at concrete stage-fixed inputs. -/
theorem C5_amended_witness :
    Title.clean_title "Sensor Device" = "Sensor Device" ∧
      Brief.clean_brief_description "Figure 1: illustrates a sensor." =
        "Figure 1: illustrates a sensor." :=
  C5_amended "Sensor Device" "Figure 1: illustrates a sensor."
    (by decide) (by decide) (by decide) (by decide) (by decide)
    (by decide) (by decide) (by decide) (by decide) (by decide)

/-- C6 counterexample: normalization leaves the out-of-order text
`Figure 3 / Figure 1 / Figure 2` unchanged — it does not re-derive
sequential numbering — and validation still accepts it. -/
theorem C6_counterexample :
    Brief.clean_brief_description Examples.outOfOrderBrief = Examples.outOfOrderBrief ∧
      Brief.figureNumbers (Brief.clean_brief_description Examples.outOfOrderBrief) ≠
        [1, 2, 3] ∧
      Brief.figureNumbers Examples.outOfOrderBrief = [3, 1, 2] ∧
      (Brief.validate_brief_description Examples.outOfOrderBrief).valid = true :=
  ⟨by decide, by decide, by decide, by decide⟩

/-- C6 amended: the sequential-numbering check only compares the SET of
figure numbers with `1..max`, so a text whose sorted deduplicated
numbers form that range — in any document order — is never flagged
`Figures must be numbered sequentially`. -/
theorem C6_amended (text : String)
    (h : Drawings.sortedSet (Brief.figureNumbers text) =
      Drawings.range1To ((Brief.figureNumbers text).foldl max 0)) :
    "Figures must be numbered sequentially" ∉
      (Brief.validate_brief_description text).issues := by
  intro hmem
  cases hfn : Brief.figureNumbers text with
  | nil =>
    simp only [Brief.validate_brief_description, hfn] at hmem
    exact absurd hmem (by decide)
  | cons a as =>
    rw [hfn] at h
    simp only [Brief.validate_brief_description, hfn] at hmem
    rw [if_neg (not_not_intro h)] at hmem
    simp only [List.nil_append] at hmem
    rcases List.mem_append.mp hmem with hm | hflat
    · split at hm
      · exact absurd hm (by decide)
      · exact absurd hm (List.not_mem_nil _)
    · rw [List.mem_flatten] at hflat
      obtain ⟨li, hli, hmsg⟩ := hflat
      rw [List.map_map, List.mem_map] at hli
      obtain ⟨p, _, rfl⟩ := hli
      simp only [Function.comp] at hmsg
      rcases List.mem_append.mp hmsg with hl | hl
      · split at hl
        · exact absurd hl (List.not_mem_nil _)
        · exact figSeq_ne_line _ _ (List.mem_singleton.mp hl)
      · split at hl
        · exact absurd hl (List.not_mem_nil _)
        · exact figSeq_ne_figureSp _ _ (List.mem_singleton.mp hl)

/-- C6 amended at the out-of-order input `3, 1, 2`. -/
theorem C6_amended_witness :
    "Figures must be numbered sequentially" ∉
      (Brief.validate_brief_description Examples.outOfOrderBrief).issues :=
  C6_amended Examples.outOfOrderBrief (by decide)

/-- C7 counterexample: with no Claims text the Detailed-Description
handler shows a warning and performs `0` engine calls — it raises no
`MissingContextError` — while `generate_detailed_description` itself,
called directly with empty claims, performs engine calls (no fail-fast
precondition exists in the generator). -/
theorem C7_counterexample :
    (App.detailedDescriptionHandler "" "a" "d" Examples.allFailEng).1 =
        App.DetailedOutcome.warnedMissingClaims ∧
      (App.detailedDescriptionHandler "" "a" "d" Examples.allFailEng).2 = 0 ∧
      (App.detailedDescriptionHandler "" "a" "d" Examples.allFailEng).1 ≠
        App.DetailedOutcome.raisedException "MissingContextError" ∧
      (Detailed.generate_detailed_description "a" "" "d" Examples.allFailEng 2).2 = 2 :=
  ⟨rfl, rfl, by decide, by decide⟩

/-- C7 amended: with no Claims text the handler warns (no exception
reaches the caller) and performs exactly `0` engine calls — the
zero-call half of the claim holds, as a UI guard rather than a raised
`MissingContextError`. -/
theorem C7_amended (abstract drawing : String) (engine : Nat → Except String String) :
    App.detailedDescriptionHandler "" abstract drawing engine =
      (App.DetailedOutcome.warnedMissingClaims, 0) := rfl

/-- C8 counterexample: with only title and claims present the
verification handler warns — naming `abstract_input`, `background`,
`summary` — and runs the verifier zero times; no `VerificationPrecondition`
exception is raised. -/
theorem C8_counterexample :
    App.verificationHandler Examples.titleClaimsOnly =
      (App.VerifyOutcome.warnedMissing
        "⚠️ Please generate these sections first: abstract_input, background, summary",
        0) ∧
      App.VerifyOutcome.warnedMissing
          "⚠️ Please generate these sections first: abstract_input, background, summary" ≠
        App.VerifyOutcome.raisedException "VerificationPrecondition" :=
  ⟨by decide, by decide⟩

/-- C8 amended: whenever any required section is missing, the handler
returns the warning naming exactly the missing session keys and never
invokes the verifier. -/
theorem C8_amended (s : App.Session) (h : App.missingSections s ≠ []) :
    App.verificationHandler s =
      (App.VerifyOutcome.warnedMissing ("⚠️ Please generate these sections first: " ++
        ⟨joinSep ", ".data ((App.missingSections s).map String.data)⟩), 0) := by
  simp only [App.verificationHandler]
  rw [if_pos h]

/-- C8 amended at the title-and-claims-only session. -/
theorem C8_amended_witness :
    App.verificationHandler Examples.titleClaimsOnly =
      (App.VerifyOutcome.warnedMissing ("⚠️ Please generate these sections first: " ++
        ⟨joinSep ", ".data
          ((App.missingSections Examples.titleClaimsOnly).map String.data)⟩), 0) :=
  C8_amended Examples.titleClaimsOnly (by decide)

/-- C9 counterexample: a text with exactly 2 `It is another object`
statements (and every other requirement satisfied) gets the too-few
message as its only ISSUE — the warnings list is empty — and the verdict
is invalid. -/
theorem C9_counterexample :
    (Objects.validate_objects Examples.objTwoStatements).issues =
        ["Too few objects: found 2 'another object' statements. Need at least 4-8."] ∧
      (Objects.validate_objects Examples.objTwoStatements).warnings = [] ∧
      (Objects.validate_objects Examples.objTwoStatements).valid = false :=
  ⟨by decide, by decide, by decide⟩

/-- C9 amended: any `another object` count below 4 puts the too-few
message among the ISSUES — never among the warnings — and forces the
verdict's validity to false. -/
theorem C9_amended (text : String)
    (h : (Objects.validate_objects text).another_object_count < 4) :
    ("Too few objects: found " ++
        natStr (Objects.validate_objects text).another_object_count ++
        " 'another object' statements. Need at least 4-8.") ∈
        (Objects.validate_objects text).issues ∧
      (Objects.validate_objects text).valid = false ∧
      ("Too few objects: found " ++
        natStr (Objects.validate_objects text).another_object_count ++
        " 'another object' statements. Need at least 4-8.") ∉
        (Objects.validate_objects text).warnings := by
  simp only [Objects.validate_objects] at h ⊢
  rw [if_pos h]
  refine ⟨by simp, ?_, ?_⟩
  · rw [decide_eq_false_iff_not]
    simp [List.length_append]
  · rw [if_pos h]
    intro hw
    rw [List.nil_append] at hw
    rcases List.mem_append.mp hw with hw | hw
    · rcases List.mem_append.mp hw with hw | hw
      · split at hw
        · exact absurd hw (List.not_mem_nil _)
        · have := congrArg (fun s => s.data.head?) (List.mem_singleton.mp hw)
          simp [string_append_data] at this
      · split at hw
        · exact absurd hw (List.not_mem_nil _)
        · split at hw
          · have := congrArg (fun s => s.data.head?) (List.mem_singleton.mp hw)
            simp [string_append_data] at this
          · exact absurd hw (List.not_mem_nil _)
    · split at hw
      · exact absurd hw (List.not_mem_nil _)
      · have := congrArg (fun s => s.data.head?) (List.mem_singleton.mp hw)
        simp [string_append_data] at this

/-- C9 amended at the two-statement text. -/
theorem C9_amended_witness :
    ("Too few objects: found " ++
        natStr (Objects.validate_objects Examples.objTwoStatements).another_object_count ++
        " 'another object' statements. Need at least 4-8.") ∈
        (Objects.validate_objects Examples.objTwoStatements).issues ∧
      (Objects.validate_objects Examples.objTwoStatements).valid = false ∧
      ("Too few objects: found " ++
        natStr (Objects.validate_objects Examples.objTwoStatements).another_object_count ++
        " 'another object' statements. Need at least 4-8.") ∉
        (Objects.validate_objects Examples.objTwoStatements).warnings :=
  C9_amended Examples.objTwoStatements (by decide)

/-- C10 counterexample: an abstract yielding no extractable components
makes `generate_claims_from_abstract` raise `ZeroDivisionError` (the
modulo in `generate_dependent_claim` runs before its `try`), so the
function is not total. -/
theorem C10_counterexample :
    Claims.generate_claims_from_abstract "hello world" (.error "index down")
        (.error "engine down") (fun _ => .error "engine down") (.error "engine down")
        1 "January" 2025 = .error Claims.PyError.zeroDivision :=
  by rfl

/-- C10 amended: whenever at least one component is extracted, the
all-raising run succeeds with a document that starts with the
`Claims` / `We Claim` headers and claim 1, ends with the date footer,
and whose dependent-claim generator yields for every claim number a
fallback sentence referencing its parent claim. -/
theorem C10_amended (abstract er eI eM : String) (eD : Nat → String)
    (day : Nat) (month : String) (year : Nat)
    (h : Claims.extract_components_from_abstract abstract ≠ []) :
    ∃ s, Claims.generate_claims_from_abstract abstract (.error er) (.error eI)
        (fun k => .error (eD k)) (.error eM) day month year = .ok s ∧
      "Claims\n\nWe Claim\n\n1. ".data <+: s.data ∧
      ("Dated this ".data ++ (natStr day).data ++ " day of ".data ++ month.data ++
        [' '] ++ (natStr year).data ++ ['\n']) <:+ s.data ∧
      ∀ k, ∃ t, Claims.generate_dependent_claim k
          (Claims.extract_components_from_abstract abstract)
          (Claims.generate_independent_claim_structured abstract
            (Claims.extract_components_from_abstract abstract) ""
            (.error eI)).device_name (.error (eD k)) = .ok t ∧
        containsSub t ("as claimed in claim " ++ natStr (Claims.dependsOn k)) = true := by
  simp only [Claims.generate_claims_from_abstract]
  obtain ⟨deps, hdeps⟩ := exceptMapM_ok
    (fun k => Claims.generate_dependent_claim (k + 2)
      (Claims.extract_components_from_abstract abstract)
      (Claims.generate_independent_claim_structured abstract
        (Claims.extract_components_from_abstract abstract) ""
        (.error eI)).device_name (.error (eD (k + 2))))
    (List.range 8)
    (fun k _ => by
      obtain ⟨t, ht, _⟩ := generate_dependent_claim_error_mentions (k + 2)
        (Claims.extract_components_from_abstract abstract) _ (eD (k + 2)) h
      exact ⟨t, ht⟩)
  rw [hdeps]
  refine ⟨_, rfl, format_claims_prefix _ _ _ _ _ _, format_claims_suffix _ _ _ _ _ _,
    fun k => generate_dependent_claim_error_mentions k
      (Claims.extract_components_from_abstract abstract) _ (eD k) h⟩

/-- C10 amended at a component-yielding abstract. -/
theorem C10_amended_witness :
    ∃ s, Claims.generate_claims_from_abstract Examples.sensorAbstract (.error "down")
        (.error "down") (fun _ => .error "down") (.error "down") 1 "January" 2025 =
        .ok s ∧
      "Claims\n\nWe Claim\n\n1. ".data <+: s.data ∧
      ("Dated this ".data ++ (natStr 1).data ++ " day of ".data ++ "January".data ++
        [' '] ++ (natStr 2025).data ++ ['\n']) <:+ s.data ∧
      ∀ k, ∃ t, Claims.generate_dependent_claim k
          (Claims.extract_components_from_abstract Examples.sensorAbstract)
          (Claims.generate_independent_claim_structured Examples.sensorAbstract
            (Claims.extract_components_from_abstract Examples.sensorAbstract) ""
            (.error "down")).device_name (.error "down") = .ok t ∧
        containsSub t ("as claimed in claim " ++ natStr (Claims.dependsOn k)) = true :=
  C10_amended Examples.sensorAbstract "down" "down" "down" (fun _ => "down")
    1 "January" 2025 (by decide)

end Patentdoc
